import Mathlib

/-!
# Verification of `verl/trainer/ppo/mismatch_helper.py`

A shallow embedding of the rollout-correction pipeline (importance-sampling
weights, rejection masks, catastrophic veto, mismatch metrics) over exact real
arithmetic.  Tensors of shape `(B, T)` become functions `Fin B → Fin T → ℝ`;
raised Python exceptions become `Except String` results.  The float tensors of
the source are modelled as real numbers; `torch.exp` / `torch.log` become
`Real.exp` / `Real.log`.

The helpers `masked_sum` / `masked_mean` (from `verl.utils.torch_functional`,
whose source is not part of this repository snapshot) are modelled from the
spec: a masked sum is the sum of `values * mask`, a masked mean divides that
sum by the mask count, either over the whole tensor or along the last axis.

The per-key metric dictionaries of the source are modelled as structures whose
fields carry the metric keys' names.  The max/min and per-sequence spread
diagnostics (`*_max`, `*_min`, `*_seq_*`) are not modelled; no claim below
mentions them.
-/

namespace MismatchHelper

open Classical

/-- A `(B, T)` tensor of reals: batch index then token index. -/
abbrev Mat (B T : ℕ) := Fin B → Fin T → ℝ

/-- `SAFETY_BOUND = 20.0`: bound applied to log values before exponentiation. -/
def SAFETY_BOUND : ℝ := 20

/-- The literal `1e-8` guarding the division in the ESS computation. -/
def ESS_EPS : ℝ := 1e-8

/-- `torch.clamp(x, min=lo, max=hi)`: the upper bound wins when `lo > hi`. -/
noncomputable def clamp2 (x lo hi : ℝ) : ℝ := min (max x lo) hi

/-- `torch.clamp(x, max=hi)` (used by the TIS truncation). -/
noncomputable def clampMax (x hi : ℝ) : ℝ := min x hi

/-- Modelled from the spec: `verl_F.masked_sum(x, m)` over the whole tensor. -/
def masked_sum {B T : ℕ} (x m : Mat B T) : ℝ := ∑ i, ∑ j, x i j * m i j

/-- `response_mask.sum()`: the number of valid tokens for a binary mask. -/
def mask_count {B T : ℕ} (m : Mat B T) : ℝ := ∑ i, ∑ j, m i j

/-- Modelled from the spec: `verl_F.masked_mean(x, m)` over the whole tensor. -/
noncomputable def masked_mean {B T : ℕ} (x m : Mat B T) : ℝ := masked_sum x m / mask_count m

/-- Modelled from the spec: `verl_F.masked_sum(x, m, axis=-1)` at row `i`. -/
def masked_sum_row {B T : ℕ} (x m : Mat B T) (i : Fin B) : ℝ := ∑ j, x i j * m i j

/-- Modelled from the spec: `verl_F.masked_mean(x, m, axis=-1)` at row `i`. -/
noncomputable def masked_mean_row {B T : ℕ} (x m : Mat B T) (i : Fin B) : ℝ :=
  masked_sum_row x m i / ∑ j, m i j

/-- `response_mask.any()`: some entry is nonzero. -/
def maskAny {B T : ℕ} (m : Mat B T) : Prop := ∃ i j, m i j ≠ 0

/-- The documented invariant on `response_mask`: every entry is 0 or 1. -/
def Binary {B T : ℕ} (m : Mat B T) : Prop := ∀ i j, m i j = 0 ∨ m i j = 1

/-- `log_ratio_for_metrics`: per the source docstrings its shape varies by
aggregation level — `(B, T)` for token level, `(B, 1)` for sequence and
geometric levels. -/
inductive LRM (B T : ℕ) where
  | tok (x : Mat B T)
  | row (x : Fin B → ℝ)

/-- `(lrm > t).float().mean()`: plain mean over the tensor's own entries. -/
noncomputable def LRM.fracGT {B T : ℕ} : LRM B T → ℝ → ℝ
  | .tok x, t => (∑ i, ∑ j, if t < x i j then (1 : ℝ) else 0) / (B * T : ℕ)
  | .row x, t => (∑ i, if t < x i then (1 : ℝ) else 0) / (B : ℕ)

/-- `(lrm < t).float().mean()`: plain mean over the tensor's own entries. -/
noncomputable def LRM.fracLT {B T : ℕ} : LRM B T → ℝ → ℝ
  | .tok x, t => (∑ i, ∑ j, if x i j < t then (1 : ℝ) else 0) / (B * T : ℕ)
  | .row x, t => (∑ i, if x i < t then (1 : ℝ) else 0) / (B : ℕ)

/-- `masked_mean((lrm > t).expand_as(mask).float(), mask)` (geometric level). -/
noncomputable def LRM.maskedFracGT {B T : ℕ} : LRM B T → ℝ → Mat B T → ℝ
  | .tok x, t, m => masked_mean (fun i j => if t < x i j then (1 : ℝ) else 0) m
  | .row x, t, m => masked_mean (fun i _ => if t < x i then (1 : ℝ) else 0) m

/-- `masked_mean((lrm < t).expand_as(mask).float(), mask)` (geometric level). -/
noncomputable def LRM.maskedFracLT {B T : ℕ} : LRM B T → ℝ → Mat B T → ℝ
  | .tok x, t, m => masked_mean (fun i j => if x i j < t then (1 : ℝ) else 0) m
  | .row x, t, m => masked_mean (fun i _ => if x i < t then (1 : ℝ) else 0) m

/-- The standard-deviation computation shared by `compute_is_metrics` and
`compute_rs_metrics`: clamp the weights to `[lo, hi]`, take
`E[X²] − (E[X])²` over the mask, floor at 0, square root. -/
noncomputable def stdClamped {B T : ℕ} (w m : Mat B T) (lo hi : ℝ) : ℝ :=
  Real.sqrt (max (masked_mean (fun i j => clamp2 (w i j) lo hi ^ 2) m
    - masked_mean (fun i j => clamp2 (w i j) lo hi) m ^ 2) 0)

/-- The effective-sample-size computation shared by `compute_is_metrics` and
`compute_rs_metrics`: with `wc = clamp(w, lo, hi)` and `μ = masked_mean wc`,
`ESS = 1 / masked_mean((wc / (μ + 1e-8))²)`. -/
noncomputable def essClamped {B T : ℕ} (w m : Mat B T) (lo hi : ℝ) : ℝ :=
  1 / masked_mean (fun i j =>
    (clamp2 (w i j) lo hi
      / (masked_mean (fun a b => clamp2 (w a b) lo hi) m + ESS_EPS)) ^ 2) m

/-- The scalar metrics of `compute_is_metrics` that the claims mention
(`rollout_is_max/min` and the `rollout_is_seq_*` diagnostics are omitted). -/
structure ISMetrics where
  rollout_is_mean : ℝ
  rollout_is_ratio_fraction_high : ℝ
  rollout_is_ratio_fraction_low : ℝ
  rollout_is_std : ℝ
  rollout_is_eff_sample_size : ℝ

/-- The record `compute_is_metrics` builds once its input validation has
passed (source lines 431–515). -/
noncomputable def isMetricsRecord {B T : ℕ} (w : Mat B T) (lrm : LRM B T)
    (m : Mat B T) (rollout_is : String) (thr : ℝ) : ISMetrics :=
  { rollout_is_mean := masked_mean w m
    rollout_is_ratio_fraction_high :=
      if rollout_is = "sequence" then lrm.fracGT (Real.log thr)
      else masked_mean (fun i j => if thr < w i j then (1 : ℝ) else 0) m
    rollout_is_ratio_fraction_low :=
      if rollout_is = "sequence" then lrm.fracLT (Real.log (1 / thr))
      else masked_mean (fun i j => if w i j < 1 / thr then (1 : ℝ) else 0) m
    rollout_is_std :=
      if 1 < mask_count m then stdClamped w m (1 / thr) thr else 0
    rollout_is_eff_sample_size := essClamped w m (1 / thr) thr }

/-- `compute_is_metrics` (source lines 403–515): raises when the mask has no
valid token, otherwise returns the metric record. -/
noncomputable def compute_is_metrics {B T : ℕ} (rollout_is_weights : Mat B T)
    (log_ratio_for_metrics : LRM B T) (response_mask : Mat B T)
    (rollout_is : String) (rollout_is_threshold : ℝ) : Except String ISMetrics :=
  if ¬ maskAny response_mask then
    .error "response_mask must contain at least one valid token (1)."
  else
    .ok (isMetricsRecord rollout_is_weights log_ratio_for_metrics response_mask
      rollout_is rollout_is_threshold)

/-- The scalar metrics of `compute_rs_metrics` that the claims mention
(`rollout_rs_max/min` and the `rollout_rs_seq_*` diagnostics are omitted). -/
structure RSMetrics where
  rollout_rs_mean : ℝ
  rollout_rs_ratio_fraction_high : ℝ
  rollout_rs_ratio_fraction_low : ℝ
  rollout_rs_std : ℝ
  rollout_rs_eff_sample_size : ℝ

/-- The record `compute_rs_metrics` builds once its input validation has
passed (source lines 220–320). -/
noncomputable def rsMetricsRecord {B T : ℕ} (w : Mat B T) (lrm : LRM B T)
    (m : Mat B T) (rollout_rs : String) (thr thrLower : ℝ) : RSMetrics :=
  { rollout_rs_mean := masked_mean w m
    rollout_rs_ratio_fraction_high :=
      if rollout_rs = "sequence" then lrm.fracGT (Real.log thr)
      else if rollout_rs = "geometric" then lrm.maskedFracGT (Real.log thr) m
      else masked_mean (fun i j => if thr < w i j then (1 : ℝ) else 0) m
    rollout_rs_ratio_fraction_low :=
      if rollout_rs = "sequence" then lrm.fracLT (Real.log thrLower)
      else if rollout_rs = "geometric" then lrm.maskedFracLT (Real.log thrLower) m
      else masked_mean (fun i j => if w i j < thrLower then (1 : ℝ) else 0) m
    rollout_rs_std :=
      if 1 < mask_count m then stdClamped w m thrLower thr else 0
    rollout_rs_eff_sample_size := essClamped w m thrLower thr }

/-- `compute_rs_metrics` (source lines 189–320): raises when the mask has no
valid token, otherwise returns the metric record. -/
noncomputable def compute_rs_metrics {B T : ℕ} (rollout_is_weights : Mat B T)
    (log_ratio_for_metrics : LRM B T) (response_mask : Mat B T)
    (rollout_rs : String) (rollout_rs_threshold rollout_rs_threshold_lower : ℝ) :
    Except String RSMetrics :=
  if ¬ maskAny response_mask then
    .error "response_mask must contain at least one valid token (1)."
  else
    .ok (rsMetricsRecord rollout_is_weights log_ratio_for_metrics response_mask
      rollout_rs rollout_rs_threshold rollout_rs_threshold_lower)

/-- The aggregated log-ratio of the IS-weight computer (identity for token
level, masked row sum broadcast back over the row for sequence level). -/
def isAggLog {B T : ℕ} (log_ratio response_mask : Mat B T)
    (rollout_is : String) : Mat B T :=
  if rollout_is = "token" then log_ratio
  else fun i _ => masked_sum_row log_ratio response_mask i

/-- The `log_ratio_for_metrics` tensor the IS-weight computer passes on. -/
def isLRMOf {B T : ℕ} (log_ratio response_mask : Mat B T)
    (rollout_is : String) : LRM B T :=
  if rollout_is = "token" then .tok log_ratio
  else .row (masked_sum_row log_ratio response_mask)

/-- The truncated IS-weight tensor of `compute_rollout_correction_weights`
(source lines 366–389): exponentiate the safety-clamped aggregated log-ratio,
truncate above at the threshold, zero the padding positions. -/
noncomputable def cwWeights {B T : ℕ} (log_ratio response_mask : Mat B T)
    (rollout_is : String) (rollout_is_threshold : ℝ) : Mat B T :=
  fun i j =>
    clampMax (Real.exp (clamp2 (isAggLog log_ratio response_mask rollout_is i j)
      (-SAFETY_BOUND) SAFETY_BOUND)) rollout_is_threshold * response_mask i j

/-- `compute_rollout_correction_weights` (source lines 323–400): validate the
level and the threshold, build the truncated weights, compute the metrics
(which raise on an empty mask), return weights and metrics. -/
noncomputable def compute_rollout_correction_weights {B T : ℕ}
    (log_ratio response_mask : Mat B T) (rollout_is : String)
    (rollout_is_threshold : ℝ) : Except String (Mat B T × ISMetrics) :=
  if rollout_is ∉ (["token", "sequence"] : List String) then
    .error "Invalid rollout_is. Must be one of token, sequence."
  else if rollout_is_threshold ≤ 0 then
    .error "rollout_is_threshold must be positive."
  else if ¬ maskAny response_mask then
    .error "response_mask must contain at least one valid token (1)."
  else
    .ok (cwWeights log_ratio response_mask rollout_is rollout_is_threshold,
      isMetricsRecord (cwWeights log_ratio response_mask rollout_is rollout_is_threshold)
        (isLRMOf log_ratio response_mask rollout_is) response_mask rollout_is
        rollout_is_threshold)

/-- The aggregated log-ratio of the rejection-mask computer: identity for
token level, masked row sum for sequence level, masked row mean for
geometric level (broadcast back over the row). -/
noncomputable def rsAggLog {B T : ℕ} (log_ratio response_mask : Mat B T)
    (rollout_rs : String) : Mat B T :=
  if rollout_rs = "token" then log_ratio
  else if rollout_rs = "sequence" then
    fun i _ => masked_sum_row log_ratio response_mask i
  else fun i _ => masked_mean_row log_ratio response_mask i

/-- The `log_ratio_for_metrics` tensor the rejection-mask computer passes on. -/
noncomputable def rsLRMOf {B T : ℕ} (log_ratio response_mask : Mat B T)
    (rollout_rs : String) : LRM B T :=
  if rollout_rs = "token" then .tok log_ratio
  else if rollout_rs = "sequence" then .row (masked_sum_row log_ratio response_mask)
  else .row (masked_mean_row log_ratio response_mask)

/-- The (clamped) rejection-sampling weights `exp(clamp(aggregated log-ratio))`. -/
noncomputable def rsWeights {B T : ℕ} (log_ratio response_mask : Mat B T)
    (rollout_rs : String) : Mat B T :=
  fun i j => Real.exp (clamp2 (rsAggLog log_ratio response_mask rollout_rs i j)
    (-SAFETY_BOUND) SAFETY_BOUND)

/-- The keep indicator of the rejection step: 1 when the clamped weight lies
in `[lower, upper]` (both bounds inclusive), else 0. -/
noncomputable def rsKeep {B T : ℕ} (log_ratio response_mask : Mat B T)
    (rollout_rs : String) (upper lower : ℝ) : Mat B T :=
  fun i j =>
    if lower ≤ rsWeights log_ratio response_mask rollout_rs i j
        ∧ rsWeights log_ratio response_mask rollout_rs i j ≤ upper
    then (1 : ℝ) else 0

/-- What `compute_rollout_rejection_mask` returns: the modified mask, the
`compute_rs_metrics` record, and the two rejection-rate metrics the function
adds to that record's dictionary. -/
structure RejectionResult (B T : ℕ) where
  modified_response_mask : Mat B T
  metrics : RSMetrics
  rollout_rs_masked_fraction : ℝ
  rollout_rs_seq_masked_fraction : ℝ

/-- The result record of `compute_rollout_rejection_mask` once validation has
passed (source lines 129–186).  For sequence/geometric levels the per-row
rejection decision (code: `mask[:, 0]`) is recomputed from the row's
aggregated weight, which every column of the row shares. -/
noncomputable def rejectionRecord {B T : ℕ} (log_ratio response_mask : Mat B T)
    (rollout_rs : String) (upper lower : ℝ) : RejectionResult B T :=
  let keep := rsKeep log_ratio response_mask rollout_rs upper lower
  { modified_response_mask := fun i j => response_mask i j * keep i j
    metrics := rsMetricsRecord (rsWeights log_ratio response_mask rollout_rs)
      (rsLRMOf log_ratio response_mask rollout_rs) response_mask rollout_rs upper lower
    rollout_rs_masked_fraction :=
      masked_mean (fun i j => 1 - keep i j) response_mask
    rollout_rs_seq_masked_fraction :=
      if rollout_rs = "token" then
        (∑ i, if 0 < masked_sum_row (fun a b => 1 - keep a b) response_mask i
          then (1 : ℝ) else 0) / (B : ℕ)
      else
        (∑ i, (1 - (if lower ≤ Real.exp (clamp2
            ((if rollout_rs = "sequence" then masked_sum_row log_ratio response_mask i
              else masked_mean_row log_ratio response_mask i))
            (-SAFETY_BOUND) SAFETY_BOUND)
          ∧ Real.exp (clamp2
            ((if rollout_rs = "sequence" then masked_sum_row log_ratio response_mask i
              else masked_mean_row log_ratio response_mask i))
            (-SAFETY_BOUND) SAFETY_BOUND) ≤ upper then (1 : ℝ) else 0)))
        / (B : ℕ) }

/-- `compute_rollout_rejection_mask` (source lines 78–186).  Validation per
the source: unknown level, then missing threshold.  The default lower
threshold is `1.0 / upper`, which in Python raises `ZeroDivisionError` when
the upper threshold is 0; note the source never checks the thresholds'
signs.  The metrics computation raises on an empty mask. -/
noncomputable def compute_rollout_rejection_mask {B T : ℕ}
    (log_ratio response_mask : Mat B T) (rollout_rs : String)
    (rollout_rs_threshold rollout_rs_threshold_lower : Option ℝ) :
    Except String (RejectionResult B T) :=
  if rollout_rs ∉ (["token", "sequence", "geometric"] : List String) then
    .error "Invalid rollout_rs. Must be one of token, sequence, geometric."
  else
    match rollout_rs_threshold, rollout_rs_threshold_lower with
    | none, _ => .error "rollout_rs_threshold must be provided for rejection sampling."
    | some upper, some lower =>
        if ¬ maskAny response_mask then
          .error "response_mask must contain at least one valid token (1)."
        else
          .ok (rejectionRecord log_ratio response_mask rollout_rs upper lower)
    | some upper, none =>
        if upper = 0 then .error "float division by zero"
        else if ¬ maskAny response_mask then
          .error "response_mask must contain at least one valid token (1)."
        else
          .ok (rejectionRecord log_ratio response_mask rollout_rs upper (1 / upper))

/-- The rollout-dependent part of `compute_mismatch_metrics` (only produced
when a rollout log-probability is supplied); the `log_ppl_diff` max/min
diagnostics are omitted. -/
structure MismatchRolloutMetrics where
  mismatch_kl : ℝ
  mismatch_k3_kl : ℝ
  mismatch_rollout_ppl : ℝ
  mismatch_rollout_log_ppl : ℝ
  mismatch_log_ppl_diff : ℝ
  mismatch_log_ppl_abs_diff : ℝ
  mismatch_ppl_ratio : ℝ

/-- The metrics of `compute_mismatch_metrics`. -/
structure MismatchMetrics where
  mismatch_training_ppl : ℝ
  mismatch_training_log_ppl : ℝ
  rollout_part : Option MismatchRolloutMetrics

/-- The metric record `compute_mismatch_metrics` builds once its assertion on
the mask has passed (source lines 696–746). -/
noncomputable def mismatchRecord {B T : ℕ} (old_log_prob : Mat B T)
    (rollout_log_prob : Option (Mat B T)) (response_mask : Mat B T) :
    MismatchMetrics :=
  let meanTrain : Fin B → ℝ := fun i => masked_mean_row old_log_prob response_mask i
  { mismatch_training_ppl := (∑ i, Real.exp (-meanTrain i)) / (B : ℕ)
    mismatch_training_log_ppl := (∑ i, -meanTrain i) / (B : ℕ)
    rollout_part := rollout_log_prob.map fun rollout =>
      let meanRoll : Fin B → ℝ := fun i => masked_mean_row rollout response_mask i
      let diff : Fin B → ℝ := fun i => meanRoll i - meanTrain i
      { mismatch_kl :=
          masked_mean (fun i j => rollout i j - old_log_prob i j) response_mask
        mismatch_k3_kl :=
          masked_mean (fun i j =>
            Real.exp (old_log_prob i j - rollout i j)
              - (old_log_prob i j - rollout i j) - 1) response_mask
        mismatch_rollout_ppl := (∑ i, Real.exp (-meanRoll i)) / (B : ℕ)
        mismatch_rollout_log_ppl := (∑ i, -meanRoll i) / (B : ℕ)
        mismatch_log_ppl_diff := (∑ i, diff i) / (B : ℕ)
        mismatch_log_ppl_abs_diff := (∑ i, |diff i|) / (B : ℕ)
        mismatch_ppl_ratio := (∑ i, Real.exp (diff i)) / (B : ℕ) } }

/-- `compute_mismatch_metrics` (source lines 663–746): asserts that the mask
has a valid token, then computes perplexity and KL diagnostics; the
rollout-dependent block runs only when a rollout log-probability is given. -/
noncomputable def compute_mismatch_metrics {B T : ℕ} (old_log_prob : Mat B T)
    (rollout_log_prob : Option (Mat B T)) (response_mask : Mat B T) :
    Except String MismatchMetrics :=
  if ¬ maskAny response_mask then
    .error "Expected at least one valid token in response_mask"
  else
    .ok (mismatchRecord old_log_prob rollout_log_prob response_mask)

/-- The result of the unified entry point: the optional IS-weight tensor (the
`DataProto` container keyed `"rollout_is_weights"` is modelled as the bare
tensor), the final mask, and the merged metrics (whose keys the source
uniformly renames under the `mismatch/` tag in its step 6). -/
structure CorrectionResult (B T : ℕ) where
  rollout_is_weights : Option (Mat B T)
  modified_response_mask : Mat B T
  is_metrics : Option ISMetrics
  rs_metrics : Option RSMetrics
  rollout_rs_masked_fraction : Option ℝ
  rollout_rs_seq_masked_fraction : Option ℝ
  rollout_is_veto_fraction : ℝ
  rollout_is_catastrophic_token_fraction : ℝ
  mismatch : MismatchMetrics

/-- A token is catastrophic when its raw log-ratio is strictly below the log
of the veto threshold and its mask entry is nonzero (`response_mask.bool()`). -/
def catastrophic {B T : ℕ} (log_ratio response_mask : Mat B T) (τv : ℝ)
    (i : Fin B) (j : Fin T) : Prop :=
  log_ratio i j < Real.log τv ∧ response_mask i j ≠ 0

/-- `has_catastrophic` at row `i`: the row contains a catastrophic token. -/
def rowHasCatastrophic {B T : ℕ} (log_ratio response_mask : Mat B T) (τv : ℝ)
    (i : Fin B) : Prop :=
  ∃ j, catastrophic log_ratio response_mask τv i j

/-- The veto-masked response mask: a row with a catastrophic token is zeroed. -/
noncomputable def vetoApply {B T : ℕ} (log_ratio response_mask modified : Mat B T)
    (τv : ℝ) : Mat B T :=
  fun i j => modified i j *
    (if rowHasCatastrophic log_ratio response_mask τv i then 0 else 1)

/-- `rollout_is_veto_fraction`: `has_catastrophic.float().mean()`. -/
noncomputable def vetoFraction {B T : ℕ} (log_ratio response_mask : Mat B T)
    (τv : ℝ) : ℝ :=
  (∑ i, if rowHasCatastrophic log_ratio response_mask τv i then (1 : ℝ) else 0)
    / (B : ℕ)

/-- `rollout_is_catastrophic_token_fraction`. -/
noncomputable def catastrophicTokenFraction {B T : ℕ}
    (log_ratio response_mask : Mat B T) (τv : ℝ) : ℝ :=
  masked_mean (fun i j =>
    if catastrophic log_ratio response_mask τv i j then (1 : ℝ) else 0) response_mask

/-- The veto step of the orchestrator (source lines 612–637): returns the
vetoed mask, the veto fraction and the catastrophic-token fraction. -/
noncomputable def vetoStep {B T : ℕ} (log_ratio response_mask modified : Mat B T)
    (rollout_token_veto_threshold : Option ℝ) :
    Except String (Mat B T × ℝ × ℝ) :=
  match rollout_token_veto_threshold with
  | none => .ok (modified, 0, 0)
  | some τv =>
      if τv ≤ 0 then .error "rollout_token_veto_threshold must be positive."
      else
        .ok (vetoApply log_ratio response_mask modified τv,
          vetoFraction log_ratio response_mask τv,
          catastrophicTokenFraction log_ratio response_mask τv)

/-- Step 2 of the orchestrator: the IS-weight computation, run only when both
the level and the threshold are supplied. -/
noncomputable def stepIS {B T : ℕ} (log_ratio response_mask : Mat B T)
    (rollout_is : Option String) (rollout_is_threshold : Option ℝ) :
    Except String (Option (Mat B T × ISMetrics)) :=
  match rollout_is, rollout_is_threshold with
  | some lvl, some τ =>
      (compute_rollout_correction_weights log_ratio response_mask lvl τ).map some
  | _, _ => .ok none

/-- Step 3 of the orchestrator: the rejection mask, computed from the
*original* response mask, run only when level and threshold are supplied. -/
noncomputable def stepRS {B T : ℕ} (log_ratio response_mask : Mat B T)
    (rollout_rs : Option String) (rollout_rs_threshold rollout_rs_threshold_lower : Option ℝ) :
    Except String (Option (RejectionResult B T)) :=
  match rollout_rs, rollout_rs_threshold with
  | some lvl, some τ =>
      (compute_rollout_rejection_mask log_ratio response_mask lvl (some τ)
        rollout_rs_threshold_lower).map some
  | _, _ => .ok none

/-- The mask the veto step starts from: the rejection step's mask when
rejection ran, otherwise (a clone of) the original mask. -/
def rsBase {B T : ℕ} (response_mask : Mat B T)
    (rsPart : Option (RejectionResult B T)) : Mat B T :=
  match rsPart with
  | some rr => rr.modified_response_mask
  | none => response_mask

/-- `compute_rollout_correction_and_rejection_mask` (source lines 518–660):
validate the mask (the shape checks of the source hold by typing here),
compute the log-ratio, then run the IS-weight step, the rejection step
(started from the original mask), the veto step (applied to the rejection
step's mask) and the mismatch metrics, in the source's order. -/
noncomputable def compute_rollout_correction_and_rejection_mask {B T : ℕ}
    (old_log_prob rollout_log_prob response_mask : Mat B T)
    (rollout_is : Option String) (rollout_is_threshold : Option ℝ)
    (rollout_rs : Option String) (rollout_rs_threshold : Option ℝ)
    (rollout_rs_threshold_lower : Option ℝ)
    (rollout_token_veto_threshold : Option ℝ) :
    Except String (CorrectionResult B T) :=
  if ¬ maskAny response_mask then
    .error "response_mask must contain at least one valid token (1)."
  else
    (stepIS (fun i j => old_log_prob i j - rollout_log_prob i j) response_mask
      rollout_is rollout_is_threshold).bind fun isPart =>
    (stepRS (fun i j => old_log_prob i j - rollout_log_prob i j) response_mask
      rollout_rs rollout_rs_threshold rollout_rs_threshold_lower).bind fun rsPart =>
    (vetoStep (fun i j => old_log_prob i j - rollout_log_prob i j) response_mask
      (rsBase response_mask rsPart) rollout_token_veto_threshold).bind fun veto =>
    (compute_mismatch_metrics old_log_prob (some rollout_log_prob)
      response_mask).map fun mm =>
    { rollout_is_weights := isPart.map Prod.fst
      modified_response_mask := veto.1
      is_metrics := isPart.map Prod.snd
      rs_metrics := rsPart.map RejectionResult.metrics
      rollout_rs_masked_fraction := rsPart.map RejectionResult.rollout_rs_masked_fraction
      rollout_rs_seq_masked_fraction :=
        rsPart.map RejectionResult.rollout_rs_seq_masked_fraction
      rollout_is_veto_fraction := veto.2.1
      rollout_is_catastrophic_token_fraction := veto.2.2
      mismatch := mm }

end MismatchHelper

namespace MismatchHelper

open Classical


/-! ## Basic facts about masked sums and means -/

lemma binary_eq_one {B T : ℕ} {m : Mat B T} (hb : Binary m) {i : Fin B} {j : Fin T}
    (h : m i j ≠ 0) : m i j = 1 := (hb i j).resolve_left h

lemma mask_count_pos {B T : ℕ} {m : Mat B T} (hb : Binary m) (hA : maskAny m) :
    0 < mask_count m := by
  obtain ⟨i, j, hij⟩ := hA
  have h1 : m i j = 1 := binary_eq_one hb hij
  unfold mask_count
  have inner_nonneg : ∀ a, 0 ≤ ∑ b, m a b := fun a =>
    Finset.sum_nonneg fun b _ => by rcases hb a b with h | h <;> simp [h]
  refine Finset.sum_pos' (fun a _ => inner_nonneg a) ⟨i, Finset.mem_univ i, ?_⟩
  refine Finset.sum_pos' (fun b _ => ?_) ⟨j, Finset.mem_univ j, by rw [h1]; norm_num⟩
  rcases hb i b with h | h <;> simp [h]

lemma masked_sum_le {B T : ℕ} {x y m : Mat B T} (hb : Binary m)
    (h : ∀ i j, m i j = 1 → x i j ≤ y i j) : masked_sum x m ≤ masked_sum y m := by
  unfold masked_sum
  refine Finset.sum_le_sum fun i _ => Finset.sum_le_sum fun j _ => ?_
  rcases hb i j with h0 | h1
  · rw [h0]; simp
  · rw [h1, mul_one, mul_one]; exact h i j h1

lemma masked_mean_mono {B T : ℕ} {x y m : Mat B T} (hb : Binary m) (hA : maskAny m)
    (h : ∀ i j, m i j = 1 → x i j ≤ y i j) : masked_mean x m ≤ masked_mean y m := by
  unfold masked_mean
  exact (div_le_div_right (mask_count_pos hb hA)).mpr (masked_sum_le hb h)

lemma masked_mean_const {B T : ℕ} {x m : Mat B T} {c : ℝ} (hb : Binary m)
    (hA : maskAny m) (h : ∀ i j, m i j = 1 → x i j = c) : masked_mean x m = c := by
  have hx : masked_sum x m = c * mask_count m := by
    unfold masked_sum mask_count
    rw [Finset.mul_sum]
    refine Finset.sum_congr rfl fun i _ => ?_
    rw [Finset.mul_sum]
    refine Finset.sum_congr rfl fun j _ => ?_
    rcases hb i j with h0 | h1
    · rw [h0]; ring
    · rw [h1, h i j h1]
  unfold masked_mean
  rw [hx, mul_div_assoc, div_self (ne_of_gt (mask_count_pos hb hA)), mul_one]

lemma masked_mean_le {B T : ℕ} {x m : Mat B T} {c : ℝ} (hb : Binary m)
    (hA : maskAny m) (h : ∀ i j, m i j = 1 → x i j ≤ c) : masked_mean x m ≤ c := by
  have h2 := masked_mean_mono hb hA (y := fun _ _ => c) h
  have h3 : masked_mean (fun _ _ => c) m = c := masked_mean_const hb hA fun _ _ _ => rfl
  rw [h3] at h2
  exact h2

lemma le_masked_mean {B T : ℕ} {x m : Mat B T} {c : ℝ} (hb : Binary m)
    (hA : maskAny m) (h : ∀ i j, m i j = 1 → c ≤ x i j) : c ≤ masked_mean x m := by
  have h2 := masked_mean_mono hb hA (x := fun _ _ => c) h
  have h3 : masked_mean (fun _ _ => c) m = c := masked_mean_const hb hA fun _ _ _ => rfl
  rw [h3] at h2
  exact h2

lemma masked_mean_smul {B T : ℕ} (x m : Mat B T) (c : ℝ) :
    masked_mean (fun i j => c * x i j) m = c * masked_mean x m := by
  simp only [masked_mean, masked_sum]
  rw [← mul_div_assoc]
  congr 1
  rw [Finset.mul_sum]
  refine Finset.sum_congr rfl fun i _ => ?_
  rw [Finset.mul_sum]
  exact Finset.sum_congr rfl fun j _ => by ring

/-- Masked Cauchy–Schwarz: the square of a masked mean is at most the masked
mean of the squares (for a binary, non-empty mask). -/
lemma sq_masked_mean_le {B T : ℕ} {x m : Mat B T} (hb : Binary m) (hA : maskAny m) :
    masked_mean x m ^ 2 ≤ masked_mean (fun i j => x i j ^ 2) m := by
  have hm2 : ∀ i j, m i j * m i j = m i j := fun i j => by
    rcases hb i j with h | h <;> simp [h]
  have hS : 0 < mask_count m := mask_count_pos hb hA
  have key : masked_sum x m ^ 2 ≤ masked_sum (fun i j => x i j ^ 2) m * mask_count m := by
    have cs := Finset.sum_mul_sq_le_sq_mul_sq Finset.univ
      (fun p : Fin B × Fin T => x p.1 p.2 * m p.1 p.2) (fun p => m p.1 p.2)
    have e1 : (∑ p : Fin B × Fin T, x p.1 p.2 * m p.1 p.2 * m p.1 p.2) = masked_sum x m := by
      rw [Fintype.sum_prod_type]
      unfold masked_sum
      refine Finset.sum_congr rfl fun i _ => Finset.sum_congr rfl fun j _ => ?_
      show x i j * m i j * m i j = x i j * m i j
      rw [mul_assoc, hm2]
    have e2 : (∑ p : Fin B × Fin T, (x p.1 p.2 * m p.1 p.2) ^ 2)
        = masked_sum (fun i j => x i j ^ 2) m := by
      rw [Fintype.sum_prod_type]
      unfold masked_sum
      refine Finset.sum_congr rfl fun i _ => Finset.sum_congr rfl fun j _ => ?_
      show (x i j * m i j) ^ 2 = x i j ^ 2 * m i j
      rw [mul_pow, sq (m i j), hm2]
    have e3 : (∑ p : Fin B × Fin T, (m p.1 p.2) ^ 2) = mask_count m := by
      rw [Fintype.sum_prod_type]
      unfold mask_count
      refine Finset.sum_congr rfl fun i _ => Finset.sum_congr rfl fun j _ => ?_
      show m i j ^ 2 = m i j
      rw [sq, hm2]
    rw [e1, e2, e3] at cs
    exact cs
  unfold masked_mean
  rw [div_pow]
  rw [show masked_sum (fun i j => x i j ^ 2) m / mask_count m
      = masked_sum (fun i j => x i j ^ 2) m * mask_count m / mask_count m ^ 2 by
    rw [sq, ← div_div, mul_div_assoc, div_self (ne_of_gt hS), mul_one]]
  exact (div_le_div_right (by positivity)).mpr key

/-! ## Destructors for the validation wrappers -/

lemma compute_is_metrics_ok {B T : ℕ} {w : Mat B T} {lrm : LRM B T} {m : Mat B T}
    {lvl : String} {thr : ℝ} {M : ISMetrics}
    (h : compute_is_metrics w lrm m lvl thr = .ok M) :
    maskAny m ∧ M = isMetricsRecord w lrm m lvl thr := by
  by_cases hA : maskAny m
  · unfold compute_is_metrics at h
    rw [if_neg (not_not_intro hA)] at h
    exact ⟨hA, (Except.ok.inj h).symm⟩
  · unfold compute_is_metrics at h
    rw [if_pos hA] at h
    cases h

lemma compute_rs_metrics_ok {B T : ℕ} {w : Mat B T} {lrm : LRM B T} {m : Mat B T}
    {lvl : String} {thr thrLower : ℝ} {M : RSMetrics}
    (h : compute_rs_metrics w lrm m lvl thr thrLower = .ok M) :
    maskAny m ∧ M = rsMetricsRecord w lrm m lvl thr thrLower := by
  by_cases hA : maskAny m
  · unfold compute_rs_metrics at h
    rw [if_neg (not_not_intro hA)] at h
    exact ⟨hA, (Except.ok.inj h).symm⟩
  · unfold compute_rs_metrics at h
    rw [if_pos hA] at h
    cases h

end MismatchHelper

namespace MismatchHelper

open Classical


/-! ## Inversion and evaluation lemmas for the entry points -/

lemma compute_rollout_correction_weights_ok {B T : ℕ} {lr m : Mat B T}
    {lvl : String} {τ : ℝ} {p : Mat B T × ISMetrics}
    (h : compute_rollout_correction_weights lr m lvl τ = .ok p) :
    (lvl = "token" ∨ lvl = "sequence") ∧ 0 < τ ∧ maskAny m ∧
      p = (cwWeights lr m lvl τ,
        isMetricsRecord (cwWeights lr m lvl τ) (isLRMOf lr m lvl) m lvl τ) := by
  unfold compute_rollout_correction_weights at h
  by_cases h1 : lvl ∉ (["token", "sequence"] : List String)
  · rw [if_pos h1] at h; cases h
  · rw [if_neg h1] at h
    by_cases h2 : τ ≤ 0
    · rw [if_pos h2] at h; cases h
    · rw [if_neg h2] at h
      by_cases h3 : ¬ maskAny m
      · rw [if_pos h3] at h; cases h
      · rw [if_neg h3] at h
        have hl := not_not.mp h1
        simp only [List.mem_cons, List.mem_singleton, List.not_mem_nil, or_false] at hl
        exact ⟨hl, lt_of_not_le h2, not_not.mp h3, (Except.ok.inj h).symm⟩

lemma compute_rollout_correction_weights_eq_ok {B T : ℕ} (lr m : Mat B T)
    {lvl : String} {τ : ℝ} (hl : lvl = "token" ∨ lvl = "sequence") (hτ : 0 < τ)
    (hA : maskAny m) :
    compute_rollout_correction_weights lr m lvl τ = .ok (cwWeights lr m lvl τ,
      isMetricsRecord (cwWeights lr m lvl τ) (isLRMOf lr m lvl) m lvl τ) := by
  unfold compute_rollout_correction_weights
  rw [if_neg (by simp only [List.mem_cons, List.mem_singleton, List.not_mem_nil,
    or_false, not_not]; exact hl)]
  rw [if_neg (not_le.mpr hτ), if_neg (not_not_intro hA)]

lemma compute_rollout_rejection_mask_ok {B T : ℕ} {lr m : Mat B T}
    {lvl : String} {thrOpt lowOpt : Option ℝ} {r : RejectionResult B T}
    (h : compute_rollout_rejection_mask lr m lvl thrOpt lowOpt = .ok r) :
    (lvl = "token" ∨ lvl = "sequence" ∨ lvl = "geometric") ∧ maskAny m ∧
      ∃ upper lower, thrOpt = some upper ∧
        (lowOpt = some lower ∨ (lowOpt = none ∧ upper ≠ 0 ∧ lower = 1 / upper)) ∧
        r = rejectionRecord lr m lvl upper lower := by
  unfold compute_rollout_rejection_mask at h
  by_cases h1 : lvl ∉ (["token", "sequence", "geometric"] : List String)
  · rw [if_pos h1] at h; cases h
  · rw [if_neg h1] at h
    have hl := not_not.mp h1
    simp only [List.mem_cons, List.mem_singleton, List.not_mem_nil, or_false] at hl
    cases thrOpt with
    | none => cases lowOpt <;> exact absurd h (by simp)
    | some upper =>
      cases lowOpt with
      | some lower =>
        dsimp only at h
        by_cases h3 : ¬ maskAny m
        · rw [if_pos h3] at h; cases h
        · rw [if_neg h3] at h
          exact ⟨hl, not_not.mp h3, upper, lower, rfl, Or.inl rfl, (Except.ok.inj h).symm⟩
      | none =>
        dsimp only at h
        by_cases h2 : upper = 0
        · rw [if_pos h2] at h; cases h
        · rw [if_neg h2] at h
          by_cases h3 : ¬ maskAny m
          · rw [if_pos h3] at h; cases h
          · rw [if_neg h3] at h
            exact ⟨hl, not_not.mp h3, upper, 1 / upper, rfl, Or.inr ⟨rfl, h2, rfl⟩,
              (Except.ok.inj h).symm⟩

lemma compute_rollout_rejection_mask_eq_ok {B T : ℕ} (lr m : Mat B T)
    (lvl : String) (upper lower : ℝ)
    (hl : lvl = "token" ∨ lvl = "sequence" ∨ lvl = "geometric") (hA : maskAny m) :
    compute_rollout_rejection_mask lr m lvl (some upper) (some lower)
      = .ok (rejectionRecord lr m lvl upper lower) := by
  unfold compute_rollout_rejection_mask
  rw [if_neg (by simp only [List.mem_cons, List.mem_singleton, List.not_mem_nil,
    or_false, not_not]; exact hl)]
  dsimp only
  rw [if_neg (not_not_intro hA)]

lemma compute_rollout_rejection_mask_eq_ok_default {B T : ℕ} (lr m : Mat B T)
    (lvl : String) (upper : ℝ)
    (hl : lvl = "token" ∨ lvl = "sequence" ∨ lvl = "geometric") (hu : upper ≠ 0)
    (hA : maskAny m) :
    compute_rollout_rejection_mask lr m lvl (some upper) none
      = .ok (rejectionRecord lr m lvl upper (1 / upper)) := by
  unfold compute_rollout_rejection_mask
  rw [if_neg (by simp only [List.mem_cons, List.mem_singleton, List.not_mem_nil,
    or_false, not_not]; exact hl)]
  dsimp only
  rw [if_neg hu, if_neg (not_not_intro hA)]

lemma compute_mismatch_metrics_ok {B T : ℕ} {old : Mat B T}
    {ro : Option (Mat B T)} {m : Mat B T} {M : MismatchMetrics}
    (h : compute_mismatch_metrics old ro m = .ok M) :
    maskAny m ∧ M = mismatchRecord old ro m := by
  by_cases hA : maskAny m
  · unfold compute_mismatch_metrics at h
    rw [if_neg (not_not_intro hA)] at h
    exact ⟨hA, (Except.ok.inj h).symm⟩
  · unfold compute_mismatch_metrics at h
    rw [if_pos hA] at h
    cases h

lemma compute_mismatch_metrics_eq_ok {B T : ℕ} (old : Mat B T)
    (ro : Option (Mat B T)) {m : Mat B T} (hA : maskAny m) :
    compute_mismatch_metrics old ro m = .ok (mismatchRecord old ro m) := by
  unfold compute_mismatch_metrics
  rw [if_neg (not_not_intro hA)]

lemma vetoStep_some_ok {B T : ℕ} (lr m mod : Mat B T) {τv : ℝ} (hτ : 0 < τv) :
    vetoStep lr m mod (some τv) = .ok (vetoApply lr m mod τv,
      vetoFraction lr m τv, catastrophicTokenFraction lr m τv) := by
  unfold vetoStep
  dsimp only
  rw [if_neg (not_le.mpr hτ)]

end MismatchHelper

namespace MismatchHelper

open Classical


/-! ## Clamp facts -/

lemma clamp2_le_right (x lo hi : ℝ) : clamp2 x lo hi ≤ hi := min_le_right _ _

lemma le_clamp2 {lo hi : ℝ} (x : ℝ) (h : lo ≤ hi) : lo ≤ clamp2 x lo hi :=
  le_min (le_max_right x lo) h

lemma clamp2_eq_self {x lo hi : ℝ} (h1 : lo ≤ x) (h2 : x ≤ hi) : clamp2 x lo hi = x := by
  unfold clamp2
  rw [max_eq_left h1, min_eq_left h2]

/-! ## The effective-sample-size metric -/

/-- The ESS the code computes is `(μ + ε)² / masked_mean(wc²)` where `wc` is
the threshold-clamped weight tensor and `μ` its masked mean. -/
lemma essClamped_eq {B T : ℕ} (w m : Mat B T) (lo hi : ℝ) :
    essClamped w m lo hi
      = (masked_mean (fun i j => clamp2 (w i j) lo hi) m + ESS_EPS) ^ 2
        / masked_mean (fun i j => clamp2 (w i j) lo hi ^ 2) m := by
  unfold essClamped
  rw [show (fun i j => (clamp2 (w i j) lo hi
        / (masked_mean (fun a b => clamp2 (w a b) lo hi) m + ESS_EPS)) ^ 2)
      = fun i j => (1 / (masked_mean (fun a b => clamp2 (w a b) lo hi) m + ESS_EPS) ^ 2)
          * clamp2 (w i j) lo hi ^ 2 by
    funext i j; rw [div_pow]; ring]
  rw [masked_mean_smul, one_div_mul_eq_div, one_div_div]

lemma ESS_EPS_pos : 0 < ESS_EPS := by unfold ESS_EPS; norm_num

lemma essClamped_pos_le {B T : ℕ} {w m : Mat B T} {τ : ℝ} (hb : Binary m)
    (hA : maskAny m) (hτ : 1 ≤ τ) :
    0 < essClamped w m (1 / τ) τ ∧ essClamped w m (1 / τ) τ ≤ (1 + ESS_EPS * τ) ^ 2 := by
  have hτ0 : (0 : ℝ) < τ := lt_of_lt_of_le one_pos hτ
  have hlo0 : (0 : ℝ) < 1 / τ := by positivity
  have hlohi : (1 : ℝ) / τ ≤ τ := le_trans (by rwa [div_le_one hτ0]) hτ
  set wc : Mat B T := fun i j => clamp2 (w i j) (1 / τ) τ with hwc
  have hwc_lo : ∀ i j, 1 / τ ≤ wc i j := fun i j => le_clamp2 _ hlohi
  have hwc_hi : ∀ i j, wc i j ≤ τ := fun i j => clamp2_le_right _ _ _
  have hμ_lo : 1 / τ ≤ masked_mean wc m := le_masked_mean hb hA fun i j _ => hwc_lo i j
  have hμ0 : 0 < masked_mean wc m := lt_of_lt_of_le hlo0 hμ_lo
  have hQ_lo : (1 / τ) ^ 2 ≤ masked_mean (fun i j => wc i j ^ 2) m :=
    le_masked_mean hb hA fun i j _ => by
      have := hwc_lo i j
      exact pow_le_pow_left (le_of_lt hlo0) this 2
  have hQ0 : 0 < masked_mean (fun i j => wc i j ^ 2) m :=
    lt_of_lt_of_le (by positivity) hQ_lo
  have hQμ : masked_mean wc m ^ 2 ≤ masked_mean (fun i j => wc i j ^ 2) m :=
    sq_masked_mean_le hb hA
  have hε := ESS_EPS_pos
  constructor
  · rw [essClamped_eq]
    have : (0 : ℝ) < (masked_mean wc m + ESS_EPS) ^ 2 := by positivity
    exact div_pos this hQ0
  · rw [essClamped_eq]
    have h1 : (masked_mean wc m + ESS_EPS) ^ 2 / masked_mean (fun i j => wc i j ^ 2) m
        ≤ (masked_mean wc m + ESS_EPS) ^ 2 / masked_mean wc m ^ 2 :=
      div_le_div_of_nonneg_left (by positivity) (by positivity) hQμ
    refine le_trans h1 ?_
    rw [← div_pow]
    have h2 : (masked_mean wc m + ESS_EPS) / masked_mean wc m ≤ 1 + ESS_EPS * τ := by
      rw [div_le_iff hμ0]
      have : 1 / τ * (1 + ESS_EPS * τ) = 1 / τ + ESS_EPS := by
        field_simp
      nlinarith [hμ_lo, hε.le, hτ0.le]
    have h3 : (0 : ℝ) ≤ (masked_mean wc m + ESS_EPS) / masked_mean wc m := by positivity
    exact pow_le_pow_left h3 h2 2

lemma essClamped_const {B T : ℕ} {w m : Mat B T} {lo hi c : ℝ} (hb : Binary m)
    (hA : maskAny m) (hc : ∀ i j, m i j = 1 → clamp2 (w i j) lo hi = c) :
    essClamped w m lo hi = ((c + ESS_EPS) / c) ^ 2 := by
  rw [essClamped_eq, masked_mean_const hb hA hc,
    masked_mean_const hb hA (fun i j h => by rw [hc i j h]), div_pow]

/-- **C1** (corrected).  For every binary mask with at least one valid token
and every threshold `1 ≤ τ`, the effective-sample-size metric computed by
`compute_is_metrics` (key `rollout_is_eff_sample_size`) and by
`compute_rs_metrics` (key `rollout_rs_eff_sample_size`, default lower
threshold `1/τ`) is the same value; it is strictly positive and at most
`(1 + 1e-8·τ)²` (approximately 1), and when all threshold-clamped weights at
valid positions equal a common value `c` it equals `((c + 1e-8)/c)²` — close
to 1, not the number of valid tokens.  The code computes the *normalized*
ESS `1/E[(w/E[w])²]`, which omits the factor `number_of_valid_tokens`; the
spec's bound `1 ≤ ESS ≤ number_of_valid_tokens` fails (see the
counterexample, where the metric is strictly below 1). -/
theorem ess_metric_bounded (B T : ℕ) (w : Mat B T) (lrmI lrmR : LRM B T)
    (m : Mat B T) (lvlI lvlR : String) (τ : ℝ) (MI : ISMetrics) (MR : RSMetrics)
    (hb : Binary m) (hτ : 1 ≤ τ)
    (hI : compute_is_metrics w lrmI m lvlI τ = .ok MI)
    (hR : compute_rs_metrics w lrmR m lvlR τ (1 / τ) = .ok MR) :
    MI.rollout_is_eff_sample_size = MR.rollout_rs_eff_sample_size
    ∧ 0 < MI.rollout_is_eff_sample_size
    ∧ MI.rollout_is_eff_sample_size ≤ (1 + ESS_EPS * τ) ^ 2
    ∧ ∀ c : ℝ, (∀ i j, m i j = 1 → clamp2 (w i j) (1 / τ) τ = c) →
        MI.rollout_is_eff_sample_size = ((c + ESS_EPS) / c) ^ 2 := by
  obtain ⟨hA, hMI⟩ := compute_is_metrics_ok hI
  obtain ⟨-, hMR⟩ := compute_rs_metrics_ok hR
  have hessI : MI.rollout_is_eff_sample_size = essClamped w m (1 / τ) τ := by
    rw [hMI]; rfl
  have hessR : MR.rollout_rs_eff_sample_size = essClamped w m (1 / τ) τ := by
    rw [hMR]; rfl
  obtain ⟨hpos, hle⟩ := essClamped_pos_le (w := w) hb hA hτ
  refine ⟨by rw [hessI, hessR], by rwa [hessI], by rwa [hessI], fun c hc => ?_⟩
  rw [hessI, essClamped_const hb hA hc]

/-- Witness for C1 at a concrete input: a single valid token with weight 1
and threshold 2. -/
theorem ess_metric_bounded_witness :
    ∃ (MI : ISMetrics) (MR : RSMetrics),
      compute_is_metrics (fun _ _ => 1 : Mat 1 1) (.tok fun _ _ => 0)
        (fun _ _ => 1) "token" 2 = .ok MI
      ∧ compute_rs_metrics (fun _ _ => 1 : Mat 1 1) (.tok fun _ _ => 0)
        (fun _ _ => 1) "token" 2 (1 / 2) = .ok MR
      ∧ 0 < MI.rollout_is_eff_sample_size := by
  have hA : maskAny (fun _ _ => 1 : Mat 1 1) := ⟨0, 0, one_ne_zero⟩
  have hb : Binary (fun _ _ => 1 : Mat 1 1) := fun _ _ => Or.inr rfl
  have hI : compute_is_metrics (fun _ _ => 1 : Mat 1 1) (.tok fun _ _ => 0)
      (fun _ _ => 1) "token" 2
      = .ok (isMetricsRecord (fun _ _ => 1 : Mat 1 1) (.tok fun _ _ => 0)
        (fun _ _ => 1) "token" 2) := by
    unfold compute_is_metrics
    rw [if_neg (not_not_intro hA)]
  have hR : compute_rs_metrics (fun _ _ => 1 : Mat 1 1) (.tok fun _ _ => 0)
      (fun _ _ => 1) "token" 2 (1 / 2)
      = .ok (rsMetricsRecord (fun _ _ => 1 : Mat 1 1) (.tok fun _ _ => 0)
        (fun _ _ => 1) "token" 2 (1 / 2)) := by
    unfold compute_rs_metrics
    rw [if_neg (not_not_intro hA)]
  refine ⟨_, _, hI, hR, ?_⟩
  exact (ess_metric_bounded 1 1 _ _ _ _ _ _ 2 _ _ hb one_le_two hI hR).2.1

/-- Counterexample for C1: two valid tokens with truncated weights 2 and 1/2
(threshold 2, so neither is changed by the metric's clamp).  The code's ESS
metric evaluates to `(5/4 + 1e-8)² / (17/8) < 1`, contradicting the claimed
bound `1 ≤ ESS`. -/
theorem ess_metric_counterexample :
    ∃ MI : ISMetrics,
      compute_is_metrics (fun _ j => if j = 0 then 2 else 1 / 2 : Mat 1 2)
        (.tok fun _ _ => 0) (fun _ _ => 1) "token" 2 = .ok MI
      ∧ MI.rollout_is_eff_sample_size < 1 := by
  have hA : maskAny (fun _ _ => 1 : Mat 1 2) := ⟨0, 0, one_ne_zero⟩
  have hI : compute_is_metrics (fun _ j => if j = 0 then 2 else 1 / 2 : Mat 1 2)
      (.tok fun _ _ => 0) (fun _ _ => 1) "token" 2
      = .ok (isMetricsRecord (fun _ j => if j = 0 then 2 else 1 / 2 : Mat 1 2)
        (.tok fun _ _ => 0) (fun _ _ => 1) "token" 2) := by
    unfold compute_is_metrics
    rw [if_neg (not_not_intro hA)]
  refine ⟨_, hI, ?_⟩
  show essClamped (fun _ j => if j = 0 then 2 else 1 / 2) (fun _ _ => 1) (1 / 2) 2 < 1
  rw [essClamped_eq]
  have e1 : masked_mean (fun i j =>
      clamp2 ((fun _ j => if j = 0 then (2 : ℝ) else 1 / 2) i j) (1 / 2) 2)
      (fun _ _ => 1 : Mat 1 2) = 5 / 4 := by
    unfold masked_mean masked_sum mask_count clamp2
    simp [Fin.sum_univ_two]
    norm_num [max_def, min_def]
  have e2 : masked_mean (fun i j =>
      clamp2 ((fun _ j => if j = 0 then (2 : ℝ) else 1 / 2) i j) (1 / 2) 2 ^ 2)
      (fun _ _ => 1 : Mat 1 2) = 17 / 8 := by
    unfold masked_mean masked_sum mask_count clamp2
    simp [Fin.sum_univ_two]
    norm_num [max_def, min_def]
  rw [e1, e2]
  unfold ESS_EPS
  norm_num

end MismatchHelper

namespace MismatchHelper

open Classical


/-! ## C4: bounds on the truncated IS weights -/

lemma exp_clamp_pos (x : ℝ) : 0 < Real.exp (clamp2 x (-SAFETY_BOUND) SAFETY_BOUND) :=
  Real.exp_pos _

/-- **C4** (confirmed).  For every valid input (binary mask; a successful call
means the level is valid, the threshold is positive and the mask has a valid
token), the weight tensor returned by `compute_rollout_correction_weights`
satisfies `0 ≤ w ≤ τ` at every position and `w = 0` wherever the mask is 0. -/
theorem correction_weights_bounded (B T : ℕ) (lr m : Mat B T) (lvl : String)
    (τ : ℝ) (p : Mat B T × ISMetrics) (hb : Binary m)
    (h : compute_rollout_correction_weights lr m lvl τ = .ok p) :
    ∀ i j, 0 ≤ p.1 i j ∧ p.1 i j ≤ τ ∧ (m i j = 0 → p.1 i j = 0) := by
  obtain ⟨hlvl, hτ, hA, hp⟩ := compute_rollout_correction_weights_ok h
  subst hp
  intro i j
  show 0 ≤ cwWeights lr m lvl τ i j ∧ cwWeights lr m lvl τ i j ≤ τ
    ∧ (m i j = 0 → cwWeights lr m lvl τ i j = 0)
  unfold cwWeights clampMax
  refine ⟨?_, ?_, fun h0 => by rw [h0, mul_zero]⟩
  · apply mul_nonneg
    · exact le_min (exp_clamp_pos _).le hτ.le
    · rcases hb i j with hm | hm <;> rw [hm] <;> norm_num
  · rcases hb i j with hm | hm
    · rw [hm, mul_zero]; exact hτ.le
    · rw [hm, mul_one]; exact min_le_right _ _

/-- Witness for C4: token level, log-ratio 0, threshold 2, single valid token. -/
theorem correction_weights_bounded_witness :
    0 ≤ (cwWeights (fun _ _ => 0 : Mat 1 1) (fun _ _ => 1) "token" 2,
        isMetricsRecord (cwWeights (fun _ _ => 0 : Mat 1 1) (fun _ _ => 1) "token" 2)
          (isLRMOf (fun _ _ => 0) (fun _ _ => 1) "token") (fun _ _ => 1) "token" 2).1 0 0
    ∧ (cwWeights (fun _ _ => 0 : Mat 1 1) (fun _ _ => 1) "token" 2,
        isMetricsRecord (cwWeights (fun _ _ => 0 : Mat 1 1) (fun _ _ => 1) "token" 2)
          (isLRMOf (fun _ _ => 0) (fun _ _ => 1) "token") (fun _ _ => 1) "token" 2).1 0 0 ≤ 2
    ∧ ((fun _ _ => 1 : Mat 1 1) 0 0 = 0 →
        (cwWeights (fun _ _ => 0 : Mat 1 1) (fun _ _ => 1) "token" 2,
          isMetricsRecord (cwWeights (fun _ _ => 0 : Mat 1 1) (fun _ _ => 1) "token" 2)
            (isLRMOf (fun _ _ => 0) (fun _ _ => 1) "token") (fun _ _ => 1) "token" 2).1 0 0 = 0) := by
  have hb : Binary (fun _ _ => 1 : Mat 1 1) := fun _ _ => Or.inr rfl
  have hA : maskAny (fun _ _ => 1 : Mat 1 1) := ⟨0, 0, one_ne_zero⟩
  have hok := compute_rollout_correction_weights_eq_ok
    (fun _ _ => 0 : Mat 1 1) (fun _ _ => 1) (Or.inl rfl) two_pos hA
  exact correction_weights_bounded 1 1 _ _ _ _ _ hb hok 0 0

/-! ## C6: the rejection mask only removes valid tokens and stays binary -/

lemma rsKeep_cases {B T : ℕ} (lr m : Mat B T) (lvl : String) (upper lower : ℝ)
    (i : Fin B) (j : Fin T) :
    rsKeep lr m lvl upper lower i j = 0 ∨ rsKeep lr m lvl upper lower i j = 1 := by
  unfold rsKeep
  split
  · exact Or.inr rfl
  · exact Or.inl rfl

lemma rejectionRecord_modified {B T : ℕ} (lr m : Mat B T) (lvl : String)
    (upper lower : ℝ) :
    (rejectionRecord lr m lvl upper lower).modified_response_mask
      = fun i j => m i j * rsKeep lr m lvl upper lower i j := rfl

/-- **C6** (confirmed).  For every valid input (binary mask), the mask
returned by `compute_rollout_rejection_mask` is elementwise at most the
input response mask — rejection only removes valid tokens — and is again
binary. -/
theorem rejection_mask_subset (B T : ℕ) (lr m : Mat B T) (lvl : String)
    (thrOpt lowOpt : Option ℝ) (r : RejectionResult B T) (hb : Binary m)
    (h : compute_rollout_rejection_mask lr m lvl thrOpt lowOpt = .ok r) :
    ∀ i j, r.modified_response_mask i j ≤ m i j
      ∧ (r.modified_response_mask i j = 0 ∨ r.modified_response_mask i j = 1) := by
  obtain ⟨hlvl, hA, upper, lower, hthr, hlow, hr⟩ := compute_rollout_rejection_mask_ok h
  subst hr
  intro i j
  simp only [rejectionRecord_modified]
  rcases hb i j with hm | hm <;> rcases rsKeep_cases lr m lvl upper lower i j with hk | hk <;>
    rw [hm, hk] <;> norm_num

/-- Witness for C6: token level, log-ratio 0, threshold 2, single valid token. -/
theorem rejection_mask_subset_witness :
    (rejectionRecord (fun _ _ => 0 : Mat 1 1) (fun _ _ => 1) "token" 2
        (1 / 2)).modified_response_mask 0 0 ≤ (fun _ _ => 1 : Mat 1 1) 0 0
    ∧ ((rejectionRecord (fun _ _ => 0 : Mat 1 1) (fun _ _ => 1) "token" 2
        (1 / 2)).modified_response_mask 0 0 = 0
      ∨ (rejectionRecord (fun _ _ => 0 : Mat 1 1) (fun _ _ => 1) "token" 2
        (1 / 2)).modified_response_mask 0 0 = 1) := by
  have hb : Binary (fun _ _ => 1 : Mat 1 1) := fun _ _ => Or.inr rfl
  have hA : maskAny (fun _ _ => 1 : Mat 1 1) := ⟨0, 0, one_ne_zero⟩
  have hok := compute_rollout_rejection_mask_eq_ok (fun _ _ => 0 : Mat 1 1)
    (fun _ _ => 1) "token" 2 (1 / 2) (Or.inl rfl) hA
  exact rejection_mask_subset 1 1 _ _ _ _ _ _ hb hok 0 0

end MismatchHelper

namespace MismatchHelper

open Classical


/-! ## C2: validation of non-positive thresholds -/

lemma stepIS_none {B T : ℕ} (lr m : Mat B T) (τI : Option ℝ) :
    stepIS lr m none τI = .ok none := rfl

lemma stepRS_none {B T : ℕ} (lr m : Mat B T) (τR τRL : Option ℝ) :
    stepRS lr m none τR τRL = .ok none := rfl

/-- **C2** (corrected).  The IS-weight computer and the veto do validate
their thresholds: `compute_rollout_correction_weights` errors whenever
`rollout_is_threshold ≤ 0`, and the unified entry point errors whenever
`rollout_token_veto_threshold ≤ 0`.  But `compute_rollout_rejection_mask`
never checks the sign of `rollout_rs_threshold`: with a negative upper
threshold (and the default lower threshold) it returns a result — one that
rejects every position — instead of raising, and with a zero upper threshold
the default lower threshold `1.0 / 0.0` raises a `ZeroDivisionError`, not an
invalid-argument error. -/
theorem nonpositive_threshold_validation :
    (∀ (B T : ℕ) (lr m : Mat B T) (lvl : String) (τ : ℝ), τ ≤ 0 →
      ∃ e, compute_rollout_correction_weights lr m lvl τ = .error e)
    ∧ (∀ (B T : ℕ) (old rol m : Mat B T) (τv : ℝ), maskAny m → τv ≤ 0 →
      compute_rollout_correction_and_rejection_mask old rol m none none none none
        none (some τv) = .error "rollout_token_veto_threshold must be positive.")
    ∧ (∀ (B T : ℕ) (lr m : Mat B T) (lvl : String) (τ : ℝ),
      (lvl = "token" ∨ lvl = "sequence" ∨ lvl = "geometric") → maskAny m → τ < 0 →
      ∃ r : RejectionResult B T,
        compute_rollout_rejection_mask lr m lvl (some τ) none = .ok r
        ∧ ∀ i j, r.modified_response_mask i j = 0)
    ∧ (∀ (B T : ℕ) (lr m : Mat B T) (lvl : String),
      (lvl = "token" ∨ lvl = "sequence" ∨ lvl = "geometric") →
      compute_rollout_rejection_mask lr m lvl (some 0) none
        = .error "float division by zero") := by
  refine ⟨?_, ?_, ?_, ?_⟩
  · intro B T lr m lvl τ hτ
    unfold compute_rollout_correction_weights
    by_cases h1 : lvl ∉ (["token", "sequence"] : List String)
    · rw [if_pos h1]; exact ⟨_, rfl⟩
    · rw [if_neg h1, if_pos hτ]; exact ⟨_, rfl⟩
  · intro B T old rol m τv hA hτ
    unfold compute_rollout_correction_and_rejection_mask
    rw [if_neg (not_not_intro hA)]
    unfold vetoStep
    simp only [stepIS_none, stepRS_none, Except.bind]
    rw [if_pos hτ]
  · intro B T lr m lvl τ hl hA hτ
    refine ⟨_, compute_rollout_rejection_mask_eq_ok_default lr m lvl τ hl (ne_of_lt hτ) hA, ?_⟩
    intro i j
    simp only [rejectionRecord_modified]
    have hk : rsKeep lr m lvl τ (1 / τ) i j = 0 := by
      unfold rsKeep
      rw [if_neg]
      rintro ⟨-, h2⟩
      exact absurd (lt_of_lt_of_le (Real.exp_pos _) h2) (not_lt.mpr hτ.le)
    rw [hk, mul_zero]
  · intro B T lr m lvl hl
    unfold compute_rollout_rejection_mask
    rw [if_neg (by simp only [List.mem_cons, List.mem_singleton, List.not_mem_nil,
      or_false, not_not]; exact hl)]
    dsimp only
    rw [if_pos rfl]

/-- Counterexample for C2: at upper threshold `-2` (non-positive) the
rejection-mask entry point returns a result instead of raising. -/
theorem nonpositive_threshold_counterexample :
    ∃ r : RejectionResult 1 1,
      compute_rollout_rejection_mask (fun _ _ => 0 : Mat 1 1) (fun _ _ => 1)
        "token" (some (-2)) none = .ok r := by
  have hA : maskAny (fun _ _ => 1 : Mat 1 1) := ⟨0, 0, one_ne_zero⟩
  exact ⟨_, compute_rollout_rejection_mask_eq_ok_default (fun _ _ => 0 : Mat 1 1)
    (fun _ _ => 1) "token" (-2) (Or.inl rfl) (by norm_num) hA⟩

end MismatchHelper

namespace MismatchHelper

open Classical


/-! ## C5: inclusive rejection thresholds and the safety clamp -/

lemma rsAggLog_token {B T : ℕ} (lr m : Mat B T) : rsAggLog lr m "token" = lr := by
  unfold rsAggLog
  rw [if_pos rfl]

/-- **C5** (corrected).  With the default lower threshold `1/τ_u` and any
`τ_u ≥ 1`: a position whose aggregated ratio is exactly `τ_u` or exactly
`1/τ_u` is kept (both bounds inclusive), for every such `τ_u`.  A position
whose aggregated ratio lies strictly outside the band is forced to 0 in the
returned mask *provided* `τ_u < exp(20)` — the rejection decision is taken on
`exp(clamp(log-ratio, ±20))`, so once the threshold itself passes the safety
bound `exp(±20)` a strictly-out-of-band ratio can be kept (see the
counterexample); the claim's "including ratios and thresholds beyond
exp(±20)" is false. -/
theorem rejection_threshold_inclusive (B T : ℕ) (lr m : Mat B T) (lvl : String)
    (upper : ℝ) (r : RejectionResult B T) (i : Fin B) (j : Fin T)
    (hu : 1 ≤ upper)
    (h : compute_rollout_rejection_mask lr m lvl (some upper) none = .ok r) :
    (Real.exp (rsAggLog lr m lvl i j) = upper →
        r.modified_response_mask i j = m i j)
    ∧ (Real.exp (rsAggLog lr m lvl i j) = 1 / upper →
        r.modified_response_mask i j = m i j)
    ∧ (upper < Real.exp SAFETY_BOUND →
        (upper < Real.exp (rsAggLog lr m lvl i j) →
          r.modified_response_mask i j = 0)
        ∧ (Real.exp (rsAggLog lr m lvl i j) < 1 / upper →
          r.modified_response_mask i j = 0)) := by
  have hu0 : (0 : ℝ) < upper := lt_of_lt_of_le one_pos hu
  obtain ⟨hlvl, hA, upper', lower, hthr, hlow, hr⟩ := compute_rollout_rejection_mask_ok h
  have hue : upper = upper' := Option.some.inj hthr
  subst hue
  have hlow' : lower = 1 / upper := by
    rcases hlow with h1 | ⟨-, -, h3⟩
    · exact Option.noConfusion h1
    · exact h3
  subst hlow'
  subst hr
  simp only [rejectionRecord_modified]
  set ℓ := rsAggLog lr m lvl i j with hℓ
  have hw : rsWeights lr m lvl i j = Real.exp (clamp2 ℓ (-SAFETY_BOUND) SAFETY_BOUND) := rfl
  have hSB : SAFETY_BOUND = (20 : ℝ) := rfl
  refine ⟨?_, ?_, ?_⟩
  · -- ratio exactly `upper` is kept
    intro hx
    have hℓ_eq : ℓ = Real.log upper := by
      rw [← hx, Real.log_exp]
    have hℓ0 : 0 ≤ ℓ := by rw [hℓ_eq]; exact Real.log_nonneg hu
    have hc : clamp2 ℓ (-SAFETY_BOUND) SAFETY_BOUND = min ℓ SAFETY_BOUND := by
      unfold clamp2
      rw [max_eq_left (le_trans (by rw [hSB]; norm_num) hℓ0)]
    have hkeep : rsKeep lr m lvl upper (1 / upper) i j = 1 := by
      unfold rsKeep
      rw [if_pos]
      constructor
      · rw [hw, hc]
        calc 1 / upper ≤ 1 := by rw [div_le_one hu0]; exact hu
          _ = Real.exp 0 := Real.exp_zero.symm
          _ ≤ _ := Real.exp_le_exp.mpr (le_min hℓ0 (by rw [hSB]; norm_num))
      · rw [hw, hc, ← hx]
        exact Real.exp_le_exp.mpr (min_le_left _ _)
    rw [hkeep, mul_one]
  · -- ratio exactly `1/upper` is kept
    intro hx
    have hℓ_eq : ℓ = -Real.log upper := by
      rw [← Real.log_inv, ← one_div, ← hx, Real.log_exp]
    have hℓ0 : ℓ ≤ 0 := by
      rw [hℓ_eq, neg_nonpos]
      exact Real.log_nonneg hu
    have hc : clamp2 ℓ (-SAFETY_BOUND) SAFETY_BOUND = max ℓ (-SAFETY_BOUND) := by
      unfold clamp2
      rw [min_eq_left (le_trans (max_le hℓ0 (by rw [hSB]; norm_num)) (by rw [hSB]; norm_num))]
    have hkeep : rsKeep lr m lvl upper (1 / upper) i j = 1 := by
      unfold rsKeep
      rw [if_pos]
      constructor
      · rw [hw, hc, ← hx]
        exact Real.exp_le_exp.mpr (le_max_left _ _)
      · rw [hw, hc]
        calc Real.exp (max ℓ (-SAFETY_BOUND))
            ≤ Real.exp 0 := Real.exp_le_exp.mpr (max_le hℓ0 (by rw [hSB]; norm_num))
          _ = 1 := Real.exp_zero
          _ ≤ upper := hu
    rw [hkeep, mul_one]
  · -- strict violations are rejected while the threshold is inside the bound
    intro hsafe
    have hlogu : Real.log upper < SAFETY_BOUND := by
      rw [← Real.log_exp SAFETY_BOUND]
      exact Real.log_lt_log hu0 hsafe
    constructor
    · intro hx
      have hℓ_gt : Real.log upper < ℓ := by
        rw [← Real.log_exp ℓ]
        exact Real.log_lt_log hu0 hx
      have hkeep : rsKeep lr m lvl upper (1 / upper) i j = 0 := by
        unfold rsKeep
        rw [if_neg]
        rintro ⟨-, h2⟩
        rw [hw] at h2
        have : clamp2 ℓ (-SAFETY_BOUND) SAFETY_BOUND ≤ Real.log upper := by
          by_contra hcon
          push_neg at hcon
          exact absurd (le_trans h2 (le_of_eq (Real.exp_log hu0).symm))
            (not_le.mpr (Real.exp_lt_exp.mpr hcon))
        have hge : Real.log upper < clamp2 ℓ (-SAFETY_BOUND) SAFETY_BOUND := by
          unfold clamp2
          exact lt_min (lt_of_lt_of_le hℓ_gt (le_max_left _ _)) hlogu
        exact absurd this (not_le.mpr hge)
      rw [hkeep, mul_zero]
    · intro hx
      have hx0 : (0 : ℝ) < 1 / upper := by positivity
      have hℓ_lt : ℓ < -Real.log upper := by
        rw [← Real.log_exp ℓ, ← Real.log_inv, ← one_div]
        exact Real.log_lt_log (Real.exp_pos _) hx
      have hkeep : rsKeep lr m lvl upper (1 / upper) i j = 0 := by
        unfold rsKeep
        rw [if_neg]
        rintro ⟨h1, -⟩
        rw [hw] at h1
        have hlt : clamp2 ℓ (-SAFETY_BOUND) SAFETY_BOUND < -Real.log upper := by
          unfold clamp2
          refine lt_of_le_of_lt (min_le_left _ _) (max_lt hℓ_lt ?_)
          rwa [neg_lt_neg_iff]
        have : Real.exp (clamp2 ℓ (-SAFETY_BOUND) SAFETY_BOUND) < 1 / upper := by
          calc Real.exp (clamp2 ℓ (-SAFETY_BOUND) SAFETY_BOUND)
              < Real.exp (-Real.log upper) := Real.exp_lt_exp.mpr hlt
            _ = 1 / upper := by rw [Real.exp_neg, Real.exp_log hu0, one_div]
        exact absurd h1 (not_le.mpr this)
      rw [hkeep, mul_zero]

/-- Witness for C5: token level, log-ratio `log 2`, threshold 2 — the
aggregated ratio is exactly the upper threshold and the token is kept. -/
theorem rejection_threshold_inclusive_witness :
    Real.exp (rsAggLog (fun _ _ => Real.log 2 : Mat 1 1) (fun _ _ => 1) "token" 0 0) = 2
    ∧ (rejectionRecord (fun _ _ => Real.log 2 : Mat 1 1) (fun _ _ => 1) "token" 2
        (1 / 2)).modified_response_mask 0 0 = (fun _ _ => 1 : Mat 1 1) 0 0 := by
  have hA : maskAny (fun _ _ => 1 : Mat 1 1) := ⟨0, 0, one_ne_zero⟩
  have hok := compute_rollout_rejection_mask_eq_ok_default
    (fun _ _ => Real.log 2 : Mat 1 1) (fun _ _ => 1) "token" 2 (Or.inl rfl)
    two_ne_zero hA
  have hexp : Real.exp (rsAggLog (fun _ _ => Real.log 2 : Mat 1 1)
      (fun _ _ => 1) "token" 0 0) = 2 := by
    rw [rsAggLog_token]
    exact Real.exp_log two_pos
  exact ⟨hexp,
    (rejection_threshold_inclusive 1 1 _ _ _ _ _ 0 0 one_le_two hok).1 hexp⟩

/-- Counterexample for C5: upper threshold `exp 21` (beyond the safety bound
`exp 20`), log-ratio 22, token level.  The aggregated ratio `exp 22` is
strictly greater than the threshold, yet the position is kept, because the
clamp evaluates the decision at `exp 20 ≤ exp 21`. -/
theorem rejection_threshold_counterexample :
    ∃ r : RejectionResult 1 1,
      compute_rollout_rejection_mask (fun _ _ => 22 : Mat 1 1) (fun _ _ => 1)
        "token" (some (Real.exp 21)) none = .ok r
      ∧ Real.exp 21
          < Real.exp (rsAggLog (fun _ _ => 22 : Mat 1 1) (fun _ _ => 1) "token" 0 0)
      ∧ r.modified_response_mask 0 0 = 1 := by
  have hA : maskAny (fun _ _ => 1 : Mat 1 1) := ⟨0, 0, one_ne_zero⟩
  have hok := compute_rollout_rejection_mask_eq_ok_default
    (fun _ _ => 22 : Mat 1 1) (fun _ _ => 1) "token" (Real.exp 21) (Or.inl rfl)
    (Real.exp_pos 21).ne' hA
  have hagg : rsAggLog (fun _ _ => 22 : Mat 1 1) (fun _ _ => 1) "token" 0 0 = 22 := by
    rw [rsAggLog_token]
  refine ⟨_, hok, ?_, ?_⟩
  · rw [hagg]
    exact Real.exp_lt_exp.mpr (by norm_num)
  · simp only [rejectionRecord_modified]
    have hw : rsWeights (fun _ _ => 22 : Mat 1 1) (fun _ _ => 1) "token" 0 0
        = Real.exp 20 := by
      unfold rsWeights
      rw [hagg]
      unfold clamp2 SAFETY_BOUND
      rw [max_eq_left (by norm_num : -(20 : ℝ) ≤ 22), min_eq_right (by norm_num : (20 : ℝ) ≤ 22)]
    have hkeep : rsKeep (fun _ _ => 22 : Mat 1 1) (fun _ _ => 1) "token"
        (Real.exp 21) (1 / Real.exp 21) 0 0 = 1 := by
      unfold rsKeep
      rw [if_pos]
      rw [hw]
      constructor
      · rw [one_div, ← Real.exp_neg]
        exact Real.exp_le_exp.mpr (by norm_num)
      · exact Real.exp_le_exp.mpr (by norm_num)
    rw [hkeep, mul_one]

end MismatchHelper

namespace MismatchHelper

open Classical


/-! ## C9: an all-zero mask makes every statistics entry point raise -/

lemma not_maskAny_of_zero {B T : ℕ} {m : Mat B T} (hz : ∀ i j, m i j = 0) :
    ¬ maskAny m := fun ⟨i, j, hij⟩ => hij (hz i j)

/-- **C9** (confirmed).  For every input whose response mask is all zeros,
each entry point that computes statistics — `compute_rollout_correction_weights`,
`compute_rollout_rejection_mask`, `compute_rollout_correction_and_rejection_mask`
and `compute_mismatch_metrics` — raises instead of returning a result (so no
NaN/Inf metrics can be returned): none of them can evaluate to `.ok`. -/
theorem empty_mask_errors (B T : ℕ) (lr old rol m : Mat B T)
    (hz : ∀ i j, m i j = 0) :
    (∀ (lvl : String) (τ : ℝ) (p : Mat B T × ISMetrics),
      compute_rollout_correction_weights lr m lvl τ ≠ .ok p)
    ∧ (∀ (lvl : String) (thrOpt lowOpt : Option ℝ) (r : RejectionResult B T),
      compute_rollout_rejection_mask lr m lvl thrOpt lowOpt ≠ .ok r)
    ∧ (∀ (isL : Option String) (τI : Option ℝ) (rsL : Option String)
        (τR τRL τV : Option ℝ) (res : CorrectionResult B T),
      compute_rollout_correction_and_rejection_mask old rol m isL τI rsL τR τRL τV
        ≠ .ok res)
    ∧ (∀ (ro : Option (Mat B T)) (M : MismatchMetrics),
      compute_mismatch_metrics old ro m ≠ .ok M) := by
  have hNA : ¬ maskAny m := not_maskAny_of_zero hz
  refine ⟨?_, ?_, ?_, ?_⟩
  · intro lvl τ p hok
    exact hNA (compute_rollout_correction_weights_ok hok).2.2.1
  · intro lvl thrOpt lowOpt r hok
    exact hNA (compute_rollout_rejection_mask_ok hok).2.1
  · intro isL τI rsL τR τRL τV res hok
    unfold compute_rollout_correction_and_rejection_mask at hok
    rw [if_pos hNA] at hok
    exact Except.noConfusion hok
  · intro ro M hok
    unfold compute_mismatch_metrics at hok
    rw [if_pos hNA] at hok
    exact Except.noConfusion hok

/-- Witness for C9 at the concrete all-zero 1×1 mask. -/
theorem empty_mask_errors_witness :
    (∀ (lvl : String) (τ : ℝ) (p : Mat 1 1 × ISMetrics),
      compute_rollout_correction_weights (fun _ _ => 0) (fun _ _ => 0) lvl τ ≠ .ok p)
    ∧ (∀ (lvl : String) (thrOpt lowOpt : Option ℝ) (r : RejectionResult 1 1),
      compute_rollout_rejection_mask (fun _ _ => 0) (fun _ _ => 0) lvl thrOpt lowOpt
        ≠ .ok r)
    ∧ (∀ (isL : Option String) (τI : Option ℝ) (rsL : Option String)
        (τR τRL τV : Option ℝ) (res : CorrectionResult 1 1),
      compute_rollout_correction_and_rejection_mask (fun _ _ => 0) (fun _ _ => 0)
        (fun _ _ => 0) isL τI rsL τR τRL τV ≠ .ok res)
    ∧ (∀ (ro : Option (Mat 1 1)) (M : MismatchMetrics),
      compute_mismatch_metrics (fun _ _ => 0) ro (fun _ _ => 0) ≠ .ok M) :=
  empty_mask_errors 1 1 (fun _ _ => 0) (fun _ _ => 0) (fun _ _ => 0) (fun _ _ => 0)
    fun _ _ => rfl

end MismatchHelper

namespace MismatchHelper

open Classical


/-! ## Inversion of the orchestrator -/

lemma vetoStep_some_ok_inv {B T : ℕ} {lr m base : Mat B T} {τv : ℝ}
    {veto : Mat B T × ℝ × ℝ} (h : vetoStep lr m base (some τv) = .ok veto) :
    0 < τv ∧ veto = (vetoApply lr m base τv, vetoFraction lr m τv,
      catastrophicTokenFraction lr m τv) := by
  unfold vetoStep at h
  dsimp only at h
  by_cases hτ : τv ≤ 0
  · rw [if_pos hτ] at h
    exact Except.noConfusion h
  · rw [if_neg hτ] at h
    exact ⟨lt_of_not_le hτ, ((Except.ok.inj h).symm)⟩

lemma stepRS_ok_inv {B T : ℕ} {lr m : Mat B T} {rsL : Option String}
    {τR τRL : Option ℝ} {rsPart : Option (RejectionResult B T)}
    (h : stepRS lr m rsL τR τRL = .ok rsPart) :
    ((rsL = none ∨ τR = none) ∧ rsPart = none)
    ∨ (∃ lvl τ rr, rsL = some lvl ∧ τR = some τ
        ∧ compute_rollout_rejection_mask lr m lvl (some τ) τRL = .ok rr
        ∧ rsPart = some rr) := by
  unfold stepRS at h
  cases rsL with
  | none =>
    cases τR with
    | none => exact Or.inl ⟨Or.inl rfl, (Except.ok.inj h).symm⟩
    | some τ => exact Or.inl ⟨Or.inl rfl, (Except.ok.inj h).symm⟩
  | some lvl =>
    cases τR with
    | none => exact Or.inl ⟨Or.inr rfl, (Except.ok.inj h).symm⟩
    | some τ =>
      dsimp only at h
      cases hE : compute_rollout_rejection_mask lr m lvl (some τ) τRL with
      | error e =>
        rw [hE] at h
        simp only [Except.map] at h
        exact Except.noConfusion h
      | ok rr =>
        rw [hE] at h
        simp only [Except.map] at h
        exact Or.inr ⟨lvl, τ, rr, rfl, rfl, hE, (Except.ok.inj h).symm⟩

lemma orchestrator_ok {B T : ℕ} {old rol m : Mat B T} {isL : Option String}
    {τI : Option ℝ} {rsL : Option String} {τR τRL τV : Option ℝ}
    {res : CorrectionResult B T}
    (h : compute_rollout_correction_and_rejection_mask old rol m isL τI rsL τR τRL τV
      = .ok res) :
    maskAny m ∧
    ∃ (isPart : Option (Mat B T × ISMetrics)) (rsPart : Option (RejectionResult B T))
      (veto : Mat B T × ℝ × ℝ),
      stepIS (fun i j => old i j - rol i j) m isL τI = .ok isPart
      ∧ stepRS (fun i j => old i j - rol i j) m rsL τR τRL = .ok rsPart
      ∧ vetoStep (fun i j => old i j - rol i j) m (rsBase m rsPart) τV = .ok veto
      ∧ res = { rollout_is_weights := isPart.map Prod.fst
                modified_response_mask := veto.1
                is_metrics := isPart.map Prod.snd
                rs_metrics := rsPart.map RejectionResult.metrics
                rollout_rs_masked_fraction :=
                  rsPart.map RejectionResult.rollout_rs_masked_fraction
                rollout_rs_seq_masked_fraction :=
                  rsPart.map RejectionResult.rollout_rs_seq_masked_fraction
                rollout_is_veto_fraction := veto.2.1
                rollout_is_catastrophic_token_fraction := veto.2.2
                mismatch := mismatchRecord old (some rol) m } := by
  by_cases hA : maskAny m
  · refine ⟨hA, ?_⟩
    unfold compute_rollout_correction_and_rejection_mask at h
    rw [if_neg (not_not_intro hA)] at h
    cases hE1 : stepIS (fun i j => old i j - rol i j) m isL τI with
    | error e =>
      rw [hE1] at h
      simp only [Except.bind] at h
      exact Except.noConfusion h
    | ok isPart =>
      rw [hE1] at h
      simp only [Except.bind] at h
      cases hE2 : stepRS (fun i j => old i j - rol i j) m rsL τR τRL with
      | error e =>
        rw [hE2] at h
        simp only [Except.bind] at h
        exact Except.noConfusion h
      | ok rsPart =>
        rw [hE2] at h
        simp only [Except.bind] at h
        cases hE3 : vetoStep (fun i j => old i j - rol i j) m (rsBase m rsPart) τV with
        | error e =>
          rw [hE3] at h
          simp only [Except.bind] at h
          exact Except.noConfusion h
        | ok veto =>
          rw [hE3] at h
          simp only [Except.bind] at h
          rw [compute_mismatch_metrics_eq_ok old (some rol) hA] at h
          simp only [Except.map] at h
          exact ⟨isPart, rsPart, veto, rfl, rfl, hE3, (Except.ok.inj h).symm⟩
  · unfold compute_rollout_correction_and_rejection_mask at h
    rw [if_pos hA] at h
    exact Except.noConfusion h

end MismatchHelper

namespace MismatchHelper

open Classical


lemma orchestrator_eq_ok {B T : ℕ} (old rol m : Mat B T) (isL : Option String)
    (τI : Option ℝ) (rsL : Option String) (τR τRL τV : Option ℝ)
    {isPart : Option (Mat B T × ISMetrics)} {rsPart : Option (RejectionResult B T)}
    {veto : Mat B T × ℝ × ℝ}
    (hA : maskAny m)
    (hIS : stepIS (fun i j => old i j - rol i j) m isL τI = .ok isPart)
    (hRS : stepRS (fun i j => old i j - rol i j) m rsL τR τRL = .ok rsPart)
    (hV : vetoStep (fun i j => old i j - rol i j) m (rsBase m rsPart) τV = .ok veto) :
    compute_rollout_correction_and_rejection_mask old rol m isL τI rsL τR τRL τV
      = .ok { rollout_is_weights := isPart.map Prod.fst
              modified_response_mask := veto.1
              is_metrics := isPart.map Prod.snd
              rs_metrics := rsPart.map RejectionResult.metrics
              rollout_rs_masked_fraction :=
                rsPart.map RejectionResult.rollout_rs_masked_fraction
              rollout_rs_seq_masked_fraction :=
                rsPart.map RejectionResult.rollout_rs_seq_masked_fraction
              rollout_is_veto_fraction := veto.2.1
              rollout_is_catastrophic_token_fraction := veto.2.2
              mismatch := mismatchRecord old (some rol) m } := by
  unfold compute_rollout_correction_and_rejection_mask
  rw [if_neg (not_not_intro hA), hIS]
  simp only [Except.bind]
  rw [hRS]
  simp only [Except.bind]
  rw [hV]
  simp only [Except.bind]
  rw [compute_mismatch_metrics_eq_ok old (some rol) hA]
  simp only [Except.map]

/-! ## C8: the final mask does not depend on the IS configuration -/

/-- **C8** (confirmed).  In the unified entry point the rejection step starts
from the original response mask and the veto from the rejection step's mask;
neither consumes anything the IS-weight step produced.  Hence two successful
calls on the same inputs that differ only in the IS configuration
(`rollout_is`, `rollout_is_threshold`) return the same final mask. -/
theorem final_mask_independent_of_is_config (B T : ℕ) (old rol m : Mat B T)
    (isL₁ isL₂ : Option String) (τI₁ τI₂ : Option ℝ) (rsL : Option String)
    (τR τRL τV : Option ℝ) (r₁ r₂ : CorrectionResult B T)
    (h₁ : compute_rollout_correction_and_rejection_mask old rol m isL₁ τI₁ rsL τR τRL τV
      = .ok r₁)
    (h₂ : compute_rollout_correction_and_rejection_mask old rol m isL₂ τI₂ rsL τR τRL τV
      = .ok r₂) :
    r₁.modified_response_mask = r₂.modified_response_mask := by
  obtain ⟨-, i1, rs1, v1, -, hrs1, hv1, hres1⟩ := orchestrator_ok h₁
  obtain ⟨-, i2, rs2, v2, -, hrs2, hv2, hres2⟩ := orchestrator_ok h₂
  have hrs : rs1 = rs2 := Except.ok.inj (hrs1.symm.trans hrs2)
  subst hrs
  have hv : v1 = v2 := Except.ok.inj (hv1.symm.trans hv2)
  subst hv
  rw [hres1, hres2]

/-- Witness for C8: the same inputs with IS disabled and with token-level IS
at threshold 2 return the same final mask. -/
theorem final_mask_independent_of_is_config_witness :
    ∃ r₁ r₂ : CorrectionResult 1 1,
      compute_rollout_correction_and_rejection_mask (fun _ _ => 0) (fun _ _ => 0)
        (fun _ _ => 1) none none none none none none = .ok r₁
      ∧ compute_rollout_correction_and_rejection_mask (fun _ _ => 0) (fun _ _ => 0)
        (fun _ _ => 1) (some "token") (some 2) none none none none = .ok r₂
      ∧ r₁.modified_response_mask = r₂.modified_response_mask := by
  have hA : maskAny (fun _ _ => 1 : Mat 1 1) := ⟨0, 0, one_ne_zero⟩
  have hstep : ∀ lr : Mat 1 1, stepIS lr (fun _ _ => 1 : Mat 1 1) (some "token") (some 2)
      = .ok (some (cwWeights lr (fun _ _ => 1) "token" 2,
        isMetricsRecord (cwWeights lr (fun _ _ => 1) "token" 2)
          (isLRMOf lr (fun _ _ => 1) "token") (fun _ _ => 1) "token" 2)) := fun lr => by
    unfold stepIS
    dsimp only
    rw [compute_rollout_correction_weights_eq_ok lr _ (Or.inl rfl) two_pos hA]
    rfl
  have h₁ok := orchestrator_eq_ok (fun _ _ => 0) (fun _ _ => 0) (fun _ _ => 1 : Mat 1 1)
    none none none none none none hA (stepIS_none _ _ _) (stepRS_none _ _ _ _) rfl
  have h₂ok := orchestrator_eq_ok (fun _ _ => 0) (fun _ _ => 0) (fun _ _ => 1 : Mat 1 1)
    (some "token") (some 2) none none none none hA (hstep _) (stepRS_none _ _ _ _) rfl
  exact ⟨_, _, h₁ok, h₂ok,
    final_mask_independent_of_is_config 1 1 _ _ _ _ _ _ _ _ _ _ _ _ _ h₁ok h₂ok⟩

/-! ## C10: the returned weights do not depend on the RS or veto configuration -/

/-- **C10** (confirmed).  The IS-weight step runs before rejection and the
veto, zeroes its tensor with the original input mask only, and nothing later
modifies it: two successful unified calls on the same inputs that differ only
in the rejection-sampling configuration and/or the veto threshold return the
same (optional) weight tensor, so a position later rejected or vetoed keeps
whatever weight the IS step gave it. -/
theorem weights_independent_of_rs_and_veto (B T : ℕ) (old rol m : Mat B T)
    (isL : Option String) (τI : Option ℝ) (rsL₁ rsL₂ : Option String)
    (τR₁ τR₂ τRL₁ τRL₂ τV₁ τV₂ : Option ℝ) (r₁ r₂ : CorrectionResult B T)
    (h₁ : compute_rollout_correction_and_rejection_mask old rol m isL τI rsL₁ τR₁
      τRL₁ τV₁ = .ok r₁)
    (h₂ : compute_rollout_correction_and_rejection_mask old rol m isL τI rsL₂ τR₂
      τRL₂ τV₂ = .ok r₂) :
    r₁.rollout_is_weights = r₂.rollout_is_weights := by
  obtain ⟨-, i1, rs1, v1, his1, -, -, hres1⟩ := orchestrator_ok h₁
  obtain ⟨-, i2, rs2, v2, his2, -, -, hres2⟩ := orchestrator_ok h₂
  have hi : i1 = i2 := Except.ok.inj (his1.symm.trans his2)
  subst hi
  rw [hres1, hres2]

/-- Witness for C10: the same inputs with rejection and veto disabled, and
with token-level rejection at threshold 2 plus a veto at threshold 1, return
the same weight tensor. -/
theorem weights_independent_of_rs_and_veto_witness :
    ∃ r₁ r₂ : CorrectionResult 1 1,
      compute_rollout_correction_and_rejection_mask (fun _ _ => 0) (fun _ _ => 0)
        (fun _ _ => 1) (some "token") (some 2) none none none none = .ok r₁
      ∧ compute_rollout_correction_and_rejection_mask (fun _ _ => 0) (fun _ _ => 0)
        (fun _ _ => 1) (some "token") (some 2) (some "token") (some 2) none (some 1)
        = .ok r₂
      ∧ r₁.rollout_is_weights = r₂.rollout_is_weights := by
  have hA : maskAny (fun _ _ => 1 : Mat 1 1) := ⟨0, 0, one_ne_zero⟩
  have hstep : ∀ lr : Mat 1 1, stepIS lr (fun _ _ => 1 : Mat 1 1) (some "token") (some 2)
      = .ok (some (cwWeights lr (fun _ _ => 1) "token" 2,
        isMetricsRecord (cwWeights lr (fun _ _ => 1) "token" 2)
          (isLRMOf lr (fun _ _ => 1) "token") (fun _ _ => 1) "token" 2)) := fun lr => by
    unfold stepIS
    dsimp only
    rw [compute_rollout_correction_weights_eq_ok lr _ (Or.inl rfl) two_pos hA]
    rfl
  have hstepR : ∀ lr : Mat 1 1,
      stepRS lr (fun _ _ => 1 : Mat 1 1) (some "token") (some 2) none
      = .ok (some (rejectionRecord lr (fun _ _ => 1) "token" 2 (1 / 2))) := fun lr => by
    unfold stepRS
    dsimp only
    rw [compute_rollout_rejection_mask_eq_ok_default lr _ "token" 2 (Or.inl rfl)
      two_ne_zero hA]
    rfl
  have h₁ok := orchestrator_eq_ok (fun _ _ => 0) (fun _ _ => 0) (fun _ _ => 1 : Mat 1 1)
    (some "token") (some 2) none none none none hA (hstep _) (stepRS_none _ _ _ _) rfl
  have h₂ok := orchestrator_eq_ok (fun _ _ => 0) (fun _ _ => 0) (fun _ _ => 1 : Mat 1 1)
    (some "token") (some 2) (some "token") (some 2) none (some 1) hA (hstep _)
    (hstepR _) (vetoStep_some_ok _ _ _ one_pos)
  exact ⟨_, _, h₁ok, h₂ok,
    weights_independent_of_rs_and_veto 1 1 _ _ _ _ _ _ _ _ _ _ _ _ _ _ _ h₁ok h₂ok⟩

end MismatchHelper

namespace MismatchHelper

open Classical


/-! ## C7: the catastrophic-token veto -/

/-- **C7** (confirmed).  For every successful unified call with a veto
threshold `τ_v` (necessarily positive): a token is catastrophic exactly when
its mask entry is 1 and its raw per-token log-ratio is strictly below
`log τ_v`; every row containing a catastrophic token is entirely zeroed in
the returned final mask; and every row without one keeps, position for
position, the mask the rejection step produced (the original mask when
rejection was disabled). -/
theorem veto_zeroes_catastrophic_rows (B T : ℕ) (old rol m : Mat B T)
    (isL : Option String) (τI : Option ℝ) (rsL : Option String) (τR τRL : Option ℝ)
    (τv : ℝ) (r : CorrectionResult B T) (hb : Binary m)
    (h : compute_rollout_correction_and_rejection_mask old rol m isL τI rsL τR τRL
      (some τv) = .ok r) :
    0 < τv
    ∧ (∀ i j, catastrophic (fun a b => old a b - rol a b) m τv i j
        ↔ (m i j = 1 ∧ old i j - rol i j < Real.log τv))
    ∧ (∀ i, rowHasCatastrophic (fun a b => old a b - rol a b) m τv i →
        ∀ j, r.modified_response_mask i j = 0)
    ∧ (∀ i, ¬ rowHasCatastrophic (fun a b => old a b - rol a b) m τv i → ∀ j,
        ((rsL = none ∨ τR = none) → r.modified_response_mask i j = m i j)
        ∧ (∀ lvl τ rr, rsL = some lvl → τR = some τ →
            compute_rollout_rejection_mask (fun a b => old a b - rol a b) m lvl
              (some τ) τRL = .ok rr →
            r.modified_response_mask i j = rr.modified_response_mask i j)) := by
  obtain ⟨-, isPart, rsPart, veto, -, hrs, hv, hres⟩ := orchestrator_ok h
  obtain ⟨hτ, hveto⟩ := vetoStep_some_ok_inv hv
  subst hveto
  refine ⟨hτ, ?_, ?_, ?_⟩
  · intro i j
    unfold catastrophic
    constructor
    · rintro ⟨h1, h2⟩
      exact ⟨binary_eq_one hb h2, h1⟩
    · rintro ⟨h1, h2⟩
      refine ⟨h2, ?_⟩
      rw [h1]
      exact one_ne_zero
  · intro i hcat j
    rw [hres]
    show vetoApply (fun a b => old a b - rol a b) m (rsBase m rsPart) τv i j = 0
    unfold vetoApply
    rw [if_pos hcat, mul_zero]
  · intro i hncat j
    constructor
    · intro hdis
      rw [hres]
      show vetoApply (fun a b => old a b - rol a b) m (rsBase m rsPart) τv i j = m i j
      unfold vetoApply
      rw [if_neg hncat, mul_one]
      rcases stepRS_ok_inv hrs with ⟨-, hnone⟩ | ⟨lvl, τ, rr, hL, hT, -, -⟩
      · rw [hnone]
        rfl
      · rcases hdis with hc | hc
        · rw [hc] at hL
          exact Option.noConfusion hL
        · rw [hc] at hT
          exact Option.noConfusion hT
    · intro lvl τ rr hL hT hrr
      rw [hres]
      show vetoApply (fun a b => old a b - rol a b) m (rsBase m rsPart) τv i j
        = rr.modified_response_mask i j
      unfold vetoApply
      rw [if_neg hncat, mul_one]
      rcases stepRS_ok_inv hrs with ⟨hd, -⟩ | ⟨lvl', τ', rr', hL', hT', hok', hsome⟩
      · rcases hd with hc | hc
        · rw [hL] at hc
          exact Option.noConfusion hc
        · rw [hT] at hc
          exact Option.noConfusion hc
      · rw [hL] at hL'
        obtain rfl := Option.some.inj hL'
        rw [hT] at hT'
        obtain rfl := Option.some.inj hT'
        have hrr' : rr' = rr := Except.ok.inj (hok'.symm.trans hrr)
        rw [hsome, hrr']
        rfl

/-- Witness for C7: log-ratio 0 everywhere, veto threshold 1 — no token is
catastrophic, so the row keeps the original mask. -/
theorem veto_zeroes_catastrophic_rows_witness :
    ∃ r : CorrectionResult 1 1,
      compute_rollout_correction_and_rejection_mask (fun _ _ => 0) (fun _ _ => 0)
        (fun _ _ => 1) none none none none none (some 1) = .ok r
      ∧ (0 : ℝ) < 1
      ∧ ∀ j, r.modified_response_mask 0 j = (fun _ _ => 1 : Mat 1 1) 0 j := by
  have hA : maskAny (fun _ _ => 1 : Mat 1 1) := ⟨0, 0, one_ne_zero⟩
  have hb : Binary (fun _ _ => 1 : Mat 1 1) := fun _ _ => Or.inr rfl
  have hok := orchestrator_eq_ok (fun _ _ => 0) (fun _ _ => 0) (fun _ _ => 1 : Mat 1 1)
    none none none none none (some 1) hA (stepIS_none _ _ _) (stepRS_none _ _ _ _)
    (vetoStep_some_ok _ _ _ one_pos)
  have hthm := veto_zeroes_catastrophic_rows 1 1 _ _ _ _ _ _ _ _ _ _ hb hok
  have hnc : ¬ rowHasCatastrophic
      (fun a b => (fun _ _ => (0 : ℝ)) a b - (fun _ _ => (0 : ℝ)) a b)
      (fun _ _ => 1 : Mat 1 1) 1 0 := by
    rintro ⟨j, hc, -⟩
    rw [Real.log_one] at hc
    norm_num at hc
  exact ⟨_, hok, hthm.1, fun j => (hthm.2.2.2 0 hnc j).1 (Or.inl rfl)⟩

end MismatchHelper

namespace MismatchHelper

open Classical


/-! ## C3: round-trip sanity when the two log-probabilities agree -/

lemma stepIS_ok_inv {B T : ℕ} {lr m : Mat B T} {isL : Option String}
    {τI : Option ℝ} {isPart : Option (Mat B T × ISMetrics)}
    (h : stepIS lr m isL τI = .ok isPart) :
    ((isL = none ∨ τI = none) ∧ isPart = none)
    ∨ (∃ lvl τ p, isL = some lvl ∧ τI = some τ
        ∧ compute_rollout_correction_weights lr m lvl τ = .ok p
        ∧ isPart = some p) := by
  unfold stepIS at h
  cases isL with
  | none =>
    cases τI with
    | none => exact Or.inl ⟨Or.inl rfl, (Except.ok.inj h).symm⟩
    | some τ => exact Or.inl ⟨Or.inl rfl, (Except.ok.inj h).symm⟩
  | some lvl =>
    cases τI with
    | none => exact Or.inl ⟨Or.inr rfl, (Except.ok.inj h).symm⟩
    | some τ =>
      dsimp only at h
      cases hE : compute_rollout_correction_weights lr m lvl τ with
      | error e =>
        rw [hE] at h
        simp only [Except.map] at h
        exact Except.noConfusion h
      | ok p =>
        rw [hE] at h
        simp only [Except.map] at h
        exact Or.inr ⟨lvl, τ, p, rfl, rfl, hE, (Except.ok.inj h).symm⟩

lemma vetoStep_none_inv {B T : ℕ} {lr m base : Mat B T} {veto : Mat B T × ℝ × ℝ}
    (h : vetoStep lr m base none = .ok veto) : veto = (base, 0, 0) :=
  (Except.ok.inj h).symm

lemma masked_mean_zero_of {B T : ℕ} {x m : Mat B T} (hb : Binary m)
    (hz0 : ∀ i j, m i j = 1 → x i j = 0) : masked_mean x m = 0 := by
  unfold masked_mean
  rw [show masked_sum x m = 0 from ?_, zero_div]
  unfold masked_sum
  refine Finset.sum_eq_zero fun i _ => Finset.sum_eq_zero fun j _ => ?_
  rcases hb i j with hm | hm
  · rw [hm, mul_zero]
  · rw [hm, mul_one]
    exact hz0 i j hm

lemma masked_sum_row_zero {B T : ℕ} {x m : Mat B T} (hb : Binary m)
    (hz0 : ∀ i j, m i j = 1 → x i j = 0) (i : Fin B) : masked_sum_row x m i = 0 := by
  unfold masked_sum_row
  refine Finset.sum_eq_zero fun j _ => ?_
  rcases hb i j with hm | hm
  · rw [hm, mul_zero]
  · rw [hm, mul_one]
    exact hz0 i j hm

lemma clamp2_zero_safety : clamp2 0 (-SAFETY_BOUND) SAFETY_BOUND = 0 :=
  clamp2_eq_self (by unfold SAFETY_BOUND; norm_num) (by unfold SAFETY_BOUND; norm_num)

/-- At a valid position every rejection-side aggregation of an (at valid
positions) zero log-ratio is zero. -/
lemma rsAggLog_zero {B T : ℕ} {lr m : Mat B T} (lvl : String) (hb : Binary m)
    (hz0 : ∀ i j, m i j = 1 → lr i j = 0) :
    ∀ i j, m i j = 1 → rsAggLog lr m lvl i j = 0 := by
  intro i j hm
  unfold rsAggLog
  by_cases h1 : lvl = "token"
  · rw [if_pos h1]
    exact hz0 i j hm
  · rw [if_neg h1]
    by_cases h2 : lvl = "sequence"
    · rw [if_pos h2]
      exact masked_sum_row_zero hb hz0 i
    · rw [if_neg h2]
      show masked_mean_row lr m i = 0
      unfold masked_mean_row
      rw [masked_sum_row_zero hb hz0 i, zero_div]

lemma rsWeights_one {B T : ℕ} {lr m : Mat B T} (lvl : String) (hb : Binary m)
    (hz0 : ∀ i j, m i j = 1 → lr i j = 0) :
    ∀ i j, m i j = 1 → rsWeights lr m lvl i j = 1 := by
  intro i j hm
  unfold rsWeights
  rw [rsAggLog_zero lvl hb hz0 i j hm, clamp2_zero_safety, Real.exp_zero]

lemma isAggLog_zero {B T : ℕ} {lr m : Mat B T} (lvl : String) (hb : Binary m)
    (hz0 : ∀ i j, m i j = 1 → lr i j = 0) :
    ∀ i j, m i j = 1 → isAggLog lr m lvl i j = 0 := by
  intro i j hm
  unfold isAggLog
  by_cases h1 : lvl = "token"
  · rw [if_pos h1]
    exact hz0 i j hm
  · rw [if_neg h1]
    exact masked_sum_row_zero hb hz0 i

/-- Round trip of the IS-weight computer: zero log-ratio at valid positions
and a threshold of at least 1 make the truncated weight tensor equal the
mask (1 at valid positions, 0 at padding). -/
lemma cwWeights_roundtrip {B T : ℕ} {lr m : Mat B T} (lvl : String) {τ : ℝ}
    (hb : Binary m) (hz0 : ∀ i j, m i j = 1 → lr i j = 0) (hτ : 1 ≤ τ) :
    ∀ i j, cwWeights lr m lvl τ i j = m i j := by
  intro i j
  unfold cwWeights
  rcases hb i j with hm | hm
  · rw [hm, mul_zero]
  · rw [hm, mul_one]
    rw [isAggLog_zero lvl hb hz0 i j hm, clamp2_zero_safety, Real.exp_zero]
    unfold clampMax
    exact min_eq_left hτ

/-- Round trip of the rejection step: zero log-ratio at valid positions and a
band containing 1 keep the mask unchanged. -/
lemma rejectionRecord_roundtrip {B T : ℕ} {lr m : Mat B T} (lvl : String)
    {upper lower : ℝ} (hb : Binary m) (hz0 : ∀ i j, m i j = 1 → lr i j = 0)
    (hup : 1 ≤ upper) (hlo : lower ≤ 1) :
    (rejectionRecord lr m lvl upper lower).modified_response_mask = m := by
  funext i j
  simp only [rejectionRecord_modified]
  rcases hb i j with hm | hm
  · rw [hm, zero_mul]
  · rw [hm, one_mul]
    unfold rsKeep
    rw [rsWeights_one lvl hb hz0 i j hm]
    exact if_pos ⟨hlo, hup⟩

/-- Round trip of the veto: zero log-ratio at valid positions and a veto
threshold in `(0, 1]` make no token catastrophic. -/
lemma no_catastrophic_roundtrip {B T : ℕ} {lr m : Mat B T} {τv : ℝ}
    (hb : Binary m) (hz0 : ∀ i j, m i j = 1 → lr i j = 0)
    (h0 : 0 < τv) (h1 : τv ≤ 1) :
    ∀ i, ¬ rowHasCatastrophic lr m τv i := by
  rintro i ⟨j, hlt, hne⟩
  have hm := binary_eq_one hb hne
  rw [hz0 i j hm] at hlt
  exact absurd hlt (not_lt.mpr (Real.log_nonpos h0.le h1))

lemma vetoApply_roundtrip {B T : ℕ} {lr m : Mat B T} {τv : ℝ} (base : Mat B T)
    (hb : Binary m) (hz0 : ∀ i j, m i j = 1 → lr i j = 0)
    (h0 : 0 < τv) (h1 : τv ≤ 1) :
    vetoApply lr m base τv = base := by
  funext i j
  unfold vetoApply
  rw [if_neg (no_catastrophic_roundtrip hb hz0 h0 h1 i), mul_one]

lemma vetoFraction_roundtrip {B T : ℕ} {lr m : Mat B T} {τv : ℝ}
    (hb : Binary m) (hz0 : ∀ i j, m i j = 1 → lr i j = 0)
    (h0 : 0 < τv) (h1 : τv ≤ 1) :
    vetoFraction lr m τv = 0 := by
  unfold vetoFraction
  rw [show (∑ i, if rowHasCatastrophic lr m τv i then (1 : ℝ) else 0) = 0 from
    Finset.sum_eq_zero fun i _ =>
      if_neg (no_catastrophic_roundtrip hb hz0 h0 h1 i), zero_div]

end MismatchHelper

namespace MismatchHelper

open Classical

/-- **C3** (corrected).  If `old_log_prob = rollout_log_prob` at every valid
position then for every successful unified call the log-ratio is 0 at valid
positions, the returned IS weights are 1 (not 0) at valid positions, the
final mask equals the original mask, the veto never fires
(`rollout_is_veto_fraction = 0`) and `mismatch_kl = mismatch_k3_kl = 0` —
*provided* the enabled thresholds are on the right side of 1: the IS
threshold and the RS upper threshold are ≥ 1, the RS lower threshold (when
given explicitly) is ≤ 1, and the veto threshold is ≤ 1.  Without these
side conditions the claim is false (see the counterexample: a veto threshold
of 2 vetoes every row even though the two log-probabilities agree). -/
theorem roundtrip_identity (B T : ℕ) (old rol m : Mat B T)
    (isL : Option String) (τI : Option ℝ) (rsL : Option String)
    (τR τRL τV : Option ℝ) (r : CorrectionResult B T)
    (hb : Binary m)
    (hz : ∀ i j, m i j = 1 → old i j = rol i j)
    (hτI : ∀ t, τI = some t → 1 ≤ t)
    (hτR : ∀ t, τR = some t → 1 ≤ t)
    (hτRL : ∀ t, τRL = some t → t ≤ 1)
    (hτV : ∀ t, τV = some t → t ≤ 1)
    (h : compute_rollout_correction_and_rejection_mask old rol m isL τI rsL τR τRL τV
      = .ok r) :
    (∀ i j, m i j = 1 → old i j - rol i j = 0)
    ∧ (∀ w, r.rollout_is_weights = some w → ∀ i j, m i j = 1 → w i j = 1)
    ∧ r.modified_response_mask = m
    ∧ r.rollout_is_veto_fraction = 0
    ∧ ∃ mr, r.mismatch.rollout_part = some mr
        ∧ mr.mismatch_kl = 0 ∧ mr.mismatch_k3_kl = 0 := by
  have hz0 : ∀ i j, m i j = 1 → old i j - rol i j = 0 := fun i j hm =>
    sub_eq_zero_of_eq (hz i j hm)
  obtain ⟨hA, isPart, rsPart, veto, his, hrs, hv, hres⟩ := orchestrator_ok h
  have hbase : rsBase m rsPart = m := by
    rcases stepRS_ok_inv hrs with ⟨-, hnone⟩ | ⟨lvl, τ, rr, hL, hT, hok, hsome⟩
    · subst hnone
      rfl
    · obtain ⟨hlvl, hA', upper, lower, hthr, hlow, hrr⟩ :=
        compute_rollout_rejection_mask_ok hok
      have hupper : upper = τ := (Option.some.inj hthr).symm
      subst hupper
      have hup1 : 1 ≤ upper := hτR upper hT
      have hlo1 : lower ≤ 1 := by
        rcases hlow with hcase | ⟨-, -, hdef⟩
        · exact hτRL lower hcase
        · rw [hdef]
          rw [div_le_one (lt_of_lt_of_le one_pos hup1)]
          exact hup1
      subst hsome
      show rr.modified_response_mask = m
      rw [hrr]
      exact rejectionRecord_roundtrip lvl hb hz0 hup1 hlo1
  have hveto1 : veto.1 = m ∧ veto.2.1 = 0 := by
    cases τV with
    | none =>
      rw [vetoStep_none_inv hv]
      exact ⟨hbase, rfl⟩
    | some τv =>
      obtain ⟨h0, hveq⟩ := vetoStep_some_ok_inv hv
      have h1 : τv ≤ 1 := hτV τv rfl
      rw [hveq]
      constructor
      · show vetoApply _ m (rsBase m rsPart) τv = m
        rw [vetoApply_roundtrip _ hb hz0 h0 h1, hbase]
      · exact vetoFraction_roundtrip hb hz0 h0 h1
  refine ⟨hz0, ?_, ?_, ?_, ?_⟩
  · intro w hw i j hm
    rcases stepIS_ok_inv his with ⟨-, hnone⟩ | ⟨lvl, τ, p, hL, hT, hok, hsome⟩
    · rw [hres, hnone] at hw
      exact Option.noConfusion hw
    · obtain ⟨hlvl, hτpos, hA2, hp⟩ := compute_rollout_correction_weights_ok hok
      have h1τ : 1 ≤ τ := hτI τ hT
      rw [hres, hsome, hp] at hw
      have hw' : cwWeights (fun a b => old a b - rol a b) m lvl τ = w :=
        Option.some.inj hw
      rw [← hw']
      exact (cwWeights_roundtrip lvl hb hz0 h1τ i j).trans hm
  · rw [hres]
    show veto.1 = m
    exact hveto1.1
  · rw [hres]
    show veto.2.1 = 0
    exact hveto1.2
  · rw [hres]
    refine ⟨_, rfl, ?_, ?_⟩
    · show masked_mean (fun i j => rol i j - old i j) m = 0
      refine masked_mean_zero_of hb fun i j hm => ?_
      rw [hz i j hm]
      exact sub_self _
    · show masked_mean (fun i j =>
        Real.exp (old i j - rol i j) - (old i j - rol i j) - 1) m = 0
      refine masked_mean_zero_of hb fun i j hm => ?_
      rw [hz0 i j hm, Real.exp_zero]
      norm_num

/-- Witness for C3: all three sub-pipelines enabled (token IS at threshold 2,
token RS at threshold 2 with default lower threshold, veto at threshold 1)
on equal log-probabilities. -/
theorem roundtrip_identity_witness :
    ∃ r : CorrectionResult 1 1,
      compute_rollout_correction_and_rejection_mask (fun _ _ => 0) (fun _ _ => 0)
        (fun _ _ => 1) (some "token") (some 2) (some "token") (some 2) none (some 1)
        = .ok r
      ∧ r.modified_response_mask = (fun _ _ => 1 : Mat 1 1)
      ∧ r.rollout_is_veto_fraction = 0 := by
  have hA : maskAny (fun _ _ => 1 : Mat 1 1) := ⟨0, 0, one_ne_zero⟩
  have hb : Binary (fun _ _ => 1 : Mat 1 1) := fun _ _ => Or.inr rfl
  have hstep : ∀ lr : Mat 1 1, stepIS lr (fun _ _ => 1 : Mat 1 1) (some "token") (some 2)
      = .ok (some (cwWeights lr (fun _ _ => 1) "token" 2,
        isMetricsRecord (cwWeights lr (fun _ _ => 1) "token" 2)
          (isLRMOf lr (fun _ _ => 1) "token") (fun _ _ => 1) "token" 2)) := fun lr => by
    unfold stepIS
    dsimp only
    rw [compute_rollout_correction_weights_eq_ok lr _ (Or.inl rfl) two_pos hA]
    rfl
  have hstepR : ∀ lr : Mat 1 1,
      stepRS lr (fun _ _ => 1 : Mat 1 1) (some "token") (some 2) none
      = .ok (some (rejectionRecord lr (fun _ _ => 1) "token" 2 (1 / 2))) := fun lr => by
    unfold stepRS
    dsimp only
    rw [compute_rollout_rejection_mask_eq_ok_default lr _ "token" 2 (Or.inl rfl)
      two_ne_zero hA]
    rfl
  have hok := orchestrator_eq_ok (fun _ _ => 0) (fun _ _ => 0) (fun _ _ => 1 : Mat 1 1)
    (some "token") (some 2) (some "token") (some 2) none (some 1) hA (hstep _)
    (hstepR _) (vetoStep_some_ok _ _ _ one_pos)
  have hthm := roundtrip_identity 1 1 _ _ _ _ _ _ _ _ _ _ hb
    (fun _ _ _ => rfl)
    (fun t ht => Option.some.inj ht ▸ one_le_two)
    (fun t ht => Option.some.inj ht ▸ one_le_two)
    (fun t ht => Option.noConfusion ht)
    (fun t ht => Option.some.inj ht ▸ le_refl (1 : ℝ))
    hok
  exact ⟨_, hok, hthm.2.2.1, hthm.2.2.2.1⟩

/-- Counterexample for C3: the claim allows *any* veto threshold.  With equal
log-probabilities and veto threshold 2, every valid token has ratio
`1 < 2 = τ_v`, so it is catastrophic: the veto fires on every row
(`rollout_is_veto_fraction = 1`) and the final mask is zero, not the
original mask. -/
theorem roundtrip_identity_counterexample :
    ∃ r : CorrectionResult 1 1,
      compute_rollout_correction_and_rejection_mask (fun _ _ => 0) (fun _ _ => 0)
        (fun _ _ => 1) (some "token") (some 2) (some "token") (some 2) none (some 2)
        = .ok r
      ∧ r.rollout_is_veto_fraction = 1
      ∧ r.modified_response_mask 0 0 = 0 := by
  have hA : maskAny (fun _ _ => 1 : Mat 1 1) := ⟨0, 0, one_ne_zero⟩
  have hstep : ∀ lr : Mat 1 1, stepIS lr (fun _ _ => 1 : Mat 1 1) (some "token") (some 2)
      = .ok (some (cwWeights lr (fun _ _ => 1) "token" 2,
        isMetricsRecord (cwWeights lr (fun _ _ => 1) "token" 2)
          (isLRMOf lr (fun _ _ => 1) "token") (fun _ _ => 1) "token" 2)) := fun lr => by
    unfold stepIS
    dsimp only
    rw [compute_rollout_correction_weights_eq_ok lr _ (Or.inl rfl) two_pos hA]
    rfl
  have hstepR : ∀ lr : Mat 1 1,
      stepRS lr (fun _ _ => 1 : Mat 1 1) (some "token") (some 2) none
      = .ok (some (rejectionRecord lr (fun _ _ => 1) "token" 2 (1 / 2))) := fun lr => by
    unfold stepRS
    dsimp only
    rw [compute_rollout_rejection_mask_eq_ok_default lr _ "token" 2 (Or.inl rfl)
      two_ne_zero hA]
    rfl
  have hok := orchestrator_eq_ok (fun _ _ => 0) (fun _ _ => 0) (fun _ _ => 1 : Mat 1 1)
    (some "token") (some 2) (some "token") (some 2) none (some 2) hA (hstep _)
    (hstepR _) (vetoStep_some_ok _ _ _ two_pos)
  have hcat : rowHasCatastrophic
      (fun i j => (fun _ _ => (0 : ℝ)) i j - (fun _ _ => (0 : ℝ)) i j)
      (fun _ _ => 1 : Mat 1 1) 2 0 := by
    refine ⟨0, ?_, one_ne_zero⟩
    show (0 : ℝ) - 0 < Real.log 2
    simpa using Real.log_pos one_lt_two
  refine ⟨_, hok, ?_, ?_⟩
  · show vetoFraction (fun i j => (fun _ _ => (0 : ℝ)) i j - (fun _ _ => (0 : ℝ)) i j)
      (fun _ _ => 1 : Mat 1 1) 2 = 1
    unfold vetoFraction
    rw [Fin.sum_univ_one, if_pos hcat]
    norm_num
  · show vetoApply (fun i j => (fun _ _ => (0 : ℝ)) i j - (fun _ _ => (0 : ℝ)) i j)
      (fun _ _ => 1 : Mat 1 1)
      (rsBase (fun _ _ => 1)
        (some (rejectionRecord (fun i j => (fun _ _ => (0 : ℝ)) i j
          - (fun _ _ => (0 : ℝ)) i j) (fun _ _ => 1) "token" 2 (1 / 2)))) 2 0 0 = 0
    unfold vetoApply
    rw [if_pos hcat, mul_zero]

end MismatchHelper
